import Mathlib

namespace IntegrationTools

/-!
Verification development for the integration-tools repository.

Strings are embedded as `List Char`; Python `dict`s keyed by ints/strings are
embedded as association lists with in-place update (`dictSet`).  Fallible code
returns `Except` / `Option`.  Each definition is translated from the named
source function.
-/


/-! ### Python string helpers (str.strip, str.replace, str.lower, str.find)

Embedded over `List Char`; the whitespace set and `lower` are modelled for the
ASCII alphabet, which is what the repository's paths use. -/

/-- ASCII whitespace recognised by Python `str.strip()`. -/
def isWs (c : Char) : Bool :=
  c = ' ' || c = '\t' || c = '\n' || c = '\r' || c = '\x0b' || c = '\x0c'

/-- Python `str.strip()`, left half: drop leading whitespace. -/
def lstripWs (l : List Char) : List Char := l.dropWhile isWs

/-- Python `str.strip()`, right half: drop trailing whitespace. -/
def rstripWs (l : List Char) : List Char := (l.reverse.dropWhile isWs).reverse

/-- Python `str.strip()`. -/
def pyStrip (l : List Char) : List Char := rstripWs (lstripWs l)

/-- One character of `p.replace("\\", "/")`. -/
def normSlash (c : Char) : Char := if c = '\\' then '/' else c

/-- Embeds `p.replace("\\", "/")`. -/
def normSlashes (l : List Char) : List Char := l.map normSlash

/-- Embeds `if len(p) >= 2 and p[1] == ":": p = p[2:]` — drop a drive letter. -/
def dropDrive : List Char → List Char
  | a :: b :: rest => if b = ':' then rest else a :: b :: rest
  | l => l

/-- Embeds `p.lstrip("/")`. -/
def lstripSlash (l : List Char) : List Char := l.dropWhile (fun c => c = '/')

/-- Python `str.lower()` restricted to the ASCII letters (identity elsewhere). -/
def lowerC : Char → Char
  | 'A' => 'a' | 'B' => 'b' | 'C' => 'c' | 'D' => 'd' | 'E' => 'e' | 'F' => 'f'
  | 'G' => 'g' | 'H' => 'h' | 'I' => 'i' | 'J' => 'j' | 'K' => 'k' | 'L' => 'l'
  | 'M' => 'm' | 'N' => 'n' | 'O' => 'o' | 'P' => 'p' | 'Q' => 'q' | 'R' => 'r'
  | 'S' => 's' | 'T' => 't' | 'U' => 'u' | 'V' => 'v' | 'W' => 'w' | 'X' => 'x'
  | 'Y' => 'y' | 'Z' => 'z'
  | c => c

/-- Embeds `p.lower()`. -/
def lowerL (l : List Char) : List Char := l.map lowerC

/-- Does `pat` occur at the start of `l`?  (Python slicing comparison.) -/
def listStarts : List Char → List Char → Bool
  | [], _ => true
  | _ :: _, [] => false
  | p :: ps, c :: cs => p = c && listStarts ps cs

/-- Python `str.find`: index of the first occurrence of `pat`, `none` for -1. -/
def findSub (pat : List Char) : List Char → Option Nat
  | [] => if listStarts pat [] then some 0 else none
  | c :: rest =>
    if listStarts pat (c :: rest) then some 0
    else (findSub pat rest).map (· + 1)

/-- One pass of `p.replace("//", "/")` (left-to-right, non-overlapping). -/
def replaceDS : List Char → List Char
  | '/' :: '/' :: rest => '/' :: replaceDS rest
  | c :: rest => c :: replaceDS rest
  | [] => []

/-- Embeds `"//" in p`. -/
def hasDS : List Char → Bool
  | '/' :: '/' :: _ => true
  | _ :: rest => hasDS rest
  | [] => false

/-- The `while "//" in p: p = p.replace("//", "/")` loop, with explicit fuel.
Each iteration strictly shrinks the list, so `l.length` iterations suffice. -/
def collapseGo : Nat → List Char → List Char
  | 0, l => l
  | n + 1, l => if hasDS l then collapseGo n (replaceDS l) else l

/-- The duplicate-slash collapsing loop of the path resolver. -/
def collapseSlashes (l : List Char) : List Char := collapseGo l.length l

/-- The marker `"districts/"`. -/
def districtsPat : List Char := "districts/".toList

/-- The fallback marker `"ftproot/districts/"`. -/
def ftprootPat : List Char := "ftproot/districts/".toList

/-- Embeds `FileManager.db_windows_path_to_remote_sftp_path`
(src/integration_tools/core/file_manager.py): convert a Windows DB path to a
remote SFTP path. -/
def db_windows_path_to_remote_sftp_path (db_path : List Char) : List Char :=
  let p0 := pyStrip db_path
  let p1 := normSlashes p0
  let p2 := dropDrive p1
  let p3 := lstripSlash p2
  let lp := lowerL p3
  let p4 :=
    match findSub districtsPat lp with
    | some i => p3.drop i
    | none =>
      match findSub ftprootPat lp with
      | some j => p3.drop (j + 8)
      | none => p3
  let p5 := collapseSlashes p4
  if p5.isEmpty then ['/'] else '/' :: p5

/-- The pattern `pat` occurs somewhere in `l` (Python `find` succeeds). -/
def occursIn (pat l : List Char) : Prop := ∃ i, listStarts pat (l.drop i) = true

/-! ### Python dict embedding

Association lists with Python `d[k] = v` semantics (overwrite in place,
else append; keys stay unique when built only through `dictSet`). -/

/-- Python dict lookup `d.get(k)` on an association list. -/
def dictGet? {κ α : Type} [DecidableEq κ] (m : List (κ × α)) (k : κ) : Option α :=
  (m.find? (fun e => decide (e.1 = k))).map (·.2)

/-- Python dict assignment `d[k] = v`. -/
def dictSet {κ α : Type} [DecidableEq κ] : List (κ × α) → κ → α → List (κ × α)
  | [], k, v => [(k, v)]
  | e :: rest, k, v => if e.1 = k then (k, v) :: rest else e :: dictSet rest k v

/-! ### AsyncRequestManager batch operations
(src/integration_tools/core/async_request_manager.py)

The per-item result dictionaries (`success` / `files_downloaded` / `message`)
are embedded as a structure; the underlying blocking single-item call
(`self.download_files([req_id], ...)` resp. `self.restore_files([req_id], ...)`)
either returns a result map or raises, which `asyncio.gather(...,
return_exceptions=True)` surfaces as an `Except` per task. -/

/-- One per-request result dictionary. -/
structure ItemResult where
  success : Bool
  files_downloaded : Nat := 0
  message : String := ""
  deriving DecidableEq, Repr

/-- Outcome of the underlying blocking single-item call. -/
inductive ItemOutcome where
  | ok (m : List (Nat × ItemResult))
  | exn (msg : String)
  deriving DecidableEq, Repr

/-- The inner task `download_single` of `AsyncRequestManager.download_files_batch`:
run the single-item call; on a normal return take the entry for `req_id` or
the `Unknown error` fallback; an escaping exception becomes the task's
`Except.error`. -/
def download_single (op : Nat → ItemOutcome) (req_id : Nat) :
    Except String (Nat × ItemResult) :=
  match op req_id with
  | .exn e => .error e
  | .ok m =>
    match dictGet? m req_id with
    | some r => .ok (req_id, r)
    | none => .ok (req_id, { success := false, message := "Unknown error" })

/-- The inner task `restore_single` of `AsyncRequestManager.restore_files_batch`
(same shape as `download_single`). -/
def restore_single (op : Nat → ItemOutcome) (req_id : Nat) :
    Except String (Nat × ItemResult) :=
  match op req_id with
  | .exn e => .error e
  | .ok m =>
    match dictGet? m req_id with
    | some r => .ok (req_id, r)
    | none => .ok (req_id, { success := false, message := "Unknown error" })

/-- The result-processing loop shared by both batch methods: an `Exception`
element of the gathered results is logged and skipped, a normal element is
written into `final_results`. -/
def recordResult (final_results : List (Nat × ItemResult))
    (r : Except String (Nat × ItemResult)) : List (Nat × ItemResult) :=
  match r with
  | .error _ => final_results
  | .ok (req_id, dr) => dictSet final_results req_id dr

/-- Embeds `AsyncRequestManager.download_files_batch`: gather all per-id tasks
(`return_exceptions=True`), then fold the result-processing loop. -/
def download_files_batch (op : Nat → ItemOutcome) (request_ids : List Nat) :
    List (Nat × ItemResult) :=
  (request_ids.map (download_single op)).foldl recordResult []

/-- Embeds `AsyncRequestManager.restore_files_batch`. -/
def restore_files_batch (op : Nat → ItemOutcome) (request_ids : List Nat) :
    List (Nat × ItemResult) :=
  (request_ids.map (restore_single op)).foldl recordResult []

/-- The value a successfully-gathered task records for `req_id`. -/
def itemValue (op : Nat → ItemOutcome) (req_id : Nat) : ItemResult :=
  match op req_id with
  | .exn _ => { success := false, message := "Unknown error" }
  | .ok m =>
    match dictGet? m req_id with
    | some r => r
    | none => { success := false, message := "Unknown error" }

/-- The per-item operation for `req_id` did not succeed (it raised, returned
no entry for the id, or returned an entry with `success = false`). -/
def itemFailed (op : Nat → ItemOutcome) (req_id : Nat) : Prop :=
  match op req_id with
  | .exn _ => True
  | .ok m =>
    match dictGet? m req_id with
    | some r => r.success = false
    | none => True

/-- A concrete per-item operation where request 1 raises and request 2 returns
normally. -/
def opC1 : Nat → ItemOutcome := fun id =>
  if id = 1 then .exn "boom" else .ok [(id, { success := true })]

/-- A concrete per-item operation where request 5 succeeds and request 6 fails. -/
def opC5 : Nat → ItemOutcome := fun id => .ok [(id, { success := decide (id = 5) })]

/-! ### Semaphore-bounded concurrency (C9)

`download_files_batch` / `restore_files_batch` guard each per-item task body
with `async with semaphore` where `semaphore = asyncio.Semaphore(max_concurrent)`.
The admission discipline is embedded as a transition system over the phases of
the gathered tasks: a waiting task may start only while fewer than
`max_concurrent` tasks are running (semaphore acquire), and a running task may
finish at any time (semaphore release). -/

/-- Phase of one gathered per-item task. -/
inductive TaskPhase where
  | waiting
  | running
  | finished
  deriving DecidableEq, Repr

/-- Number of tasks currently inside the semaphore-guarded region. -/
def runningCount (s : List TaskPhase) : Nat :=
  s.countP (fun p => decide (p = .running))

/-- One scheduler step of the batch under `asyncio.Semaphore(max_concurrent)`:
`acquire` admits a waiting task only below the limit, `release` retires a
running task. -/
inductive SemStep (max_concurrent : Nat) : List TaskPhase → List TaskPhase → Prop where
  | acquire (a b : List TaskPhase)
      (h : runningCount (a ++ TaskPhase.waiting :: b) < max_concurrent) :
      SemStep max_concurrent (a ++ TaskPhase.waiting :: b) (a ++ TaskPhase.running :: b)
  | release (a b : List TaskPhase) :
      SemStep max_concurrent (a ++ TaskPhase.running :: b) (a ++ TaskPhase.finished :: b)

/-- States reachable by the batch scheduler. -/
def SemReachable (max_concurrent : Nat) : List TaskPhase → List TaskPhase → Prop :=
  Relation.ReflTransGen (SemStep max_concurrent)

/-! ### CommonWorkflows (src/integration_tools/workflows/common_workflows.py)

The workflow methods' effectful dependencies (`find_requests`,
`restore_files_batch`, `download_files_batch`, `rerun_requests` on
`self.request_manager`) are passed as an environment of outcome functions, the
same seam the repository's own tests mock (`AsyncMock`); each call either
returns a value or raises, embedded as `Except`.  The heterogeneous
`workflow_data` dict is embedded as an association list of tagged values. -/

/-- One row returned by `find_requests`. -/
structure RequestRow where
  RequestID : Nat
  DistrictID : Nat
  DataRequestTypeID : Nat
  DataRequestTypeName : String
  ImportedFileName : Option String
  Status : Option Nat
  RequestTime : Option Nat
  RequestTimeEST : Option Nat
  deriving DecidableEq, Repr

/-- The result dict of `RequestManager.rerun_requests`. -/
structure RerunResult where
  request_ids : List Nat
  checksums_deleted : Nat
  queues_updated : Nat
  deriving DecidableEq, Repr

/-- The per-status/type/district analysis assembled by
`integration_monitoring_workflow`. -/
structure AnalysisData where
  success_count : Nat
  failed_count : Nat
  by_type : List (String × Nat × Nat)
  by_district : List (Nat × Nat × Nat)
  failed_requests : List (Nat × Nat × String × Option Nat × Option Nat)
  districts_with_failures : List Nat
  deriving DecidableEq, Repr

/-- A value stored in a workflow's `workflow_data` dict. -/
inductive DataVal where
  | nat (n : Nat)
  | natList (l : List Nat)
  | optNatList (l : Option (List Nat))
  | strList (l : List String)
  | itemMap (m : List (Nat × ItemResult))
  | rerun (r : RerunResult)
  | reqDetails (l : List (Nat × Nat × String × Option Nat))
  | summary (successful total files : Nat)
  | ratio (num den : Nat)
  | analysis (a : AnalysisData)
  | msummary (healthy issues : Nat) (most_problematic : Option String)
  deriving DecidableEq, Repr

/-- Result of a workflow execution (`WorkflowResult` dataclass). -/
structure WorkflowResult where
  success : Bool
  message : String
  data : List (String × DataVal)
  steps_completed : Nat
  total_steps : Nat
  deriving DecidableEq, Repr

/-- Outcomes of the request-manager calls a workflow performs during one
execution. -/
structure WorkflowEnv where
  find : Except String (List RequestRow)
  restore_files_batch : List Nat → Except String (List (Nat × ItemResult))
  download_files_batch : List Nat → Except String (List (Nat × ItemResult))
  rerun_requests : List Nat → Bool → Except String RerunResult

/-- Embeds `CommonWorkflows.district_refresh_workflow`: find latest requests,
optionally restore files, then rerun with optional checksum deletion;
exceptions are caught and returned as a failed `WorkflowResult` carrying the
partial `workflow_data`. -/
def district_refresh_workflow (env : WorkflowEnv) (district_ids : List Nat)
    (delete_checksums : Bool) (restore_files : Bool) : WorkflowResult :=
  let total_steps := if restore_files then 3 else 2
  match env.find with
  | .error e =>
    { success := false, message := "Workflow failed at step 1: " ++ e,
      data := [], steps_completed := 0, total_steps := total_steps }
  | .ok requests =>
    if requests.isEmpty then
      { success := false, message := "No requests found for the specified criteria",
        data := [("districts", DataVal.natList district_ids), ("requests_found", DataVal.nat 0)],
        steps_completed := 0, total_steps := total_steps }
    else
      let request_ids := requests.map (·.RequestID)
      let workflow_data :=
        dictSet (dictSet [] "requests_found" (DataVal.nat request_ids.length))
          "request_ids" (DataVal.natList request_ids)
      if restore_files then
        match env.restore_files_batch request_ids with
        | .error e =>
          { success := false, message := "Workflow failed at step 2: " ++ e,
            data := workflow_data, steps_completed := 1, total_steps := total_steps }
        | .ok restore_results =>
          let workflow_data :=
            dictSet workflow_data "restore_results" (DataVal.itemMap restore_results)
          match env.rerun_requests request_ids delete_checksums with
          | .error e =>
            { success := false, message := "Workflow failed at step 3: " ++ e,
              data := workflow_data, steps_completed := 2, total_steps := total_steps }
          | .ok rerun_result =>
            { success := true,
              message := "Successfully completed district refresh for " ++
                toString district_ids.length ++ " districts",
              data := dictSet workflow_data "rerun_result" (DataVal.rerun rerun_result),
              steps_completed := 3, total_steps := total_steps }
      else
        match env.rerun_requests request_ids delete_checksums with
        | .error e =>
          { success := false, message := "Workflow failed at step 2: " ++ e,
            data := workflow_data, steps_completed := 1, total_steps := total_steps }
        | .ok rerun_result =>
          { success := true,
            message := "Successfully completed district refresh for " ++
              toString district_ids.length ++ " districts",
            data := dictSet workflow_data "rerun_result" (DataVal.rerun rerun_result),
            steps_completed := 2, total_steps := total_steps }

/-- Embeds `CommonWorkflows.bulk_file_download_workflow`: find matching requests, then
download concurrently and summarise; the `except` branch always reports
`steps_completed = 1` and the partial `workflow_data`. -/
def bulk_file_download_workflow (env : WorkflowEnv) (type_names : List String)
    (district_ids : Option (List Nat)) : WorkflowResult :=
  match env.find with
  | .error e =>
    { success := false, message := "Bulk download workflow failed: " ++ e,
      data := [], steps_completed := 1, total_steps := 2 }
  | .ok requests =>
    if requests.isEmpty then
      { success := false, message := "No requests found for the specified criteria",
        data := [("type_names", DataVal.strList type_names),
                 ("district_ids", DataVal.optNatList district_ids)],
        steps_completed := 0, total_steps := 2 }
    else
      let request_ids := requests.map (·.RequestID)
      let workflow_data :=
        dictSet (dictSet [] "requests_found" (DataVal.nat request_ids.length))
          "request_details"
          (DataVal.reqDetails (requests.map fun r =>
            (r.RequestID, r.DistrictID, r.DataRequestTypeName, r.Status)))
      match env.download_files_batch request_ids with
      | .error e =>
        { success := false, message := "Bulk download workflow failed: " ++ e,
          data := workflow_data, steps_completed := 1, total_steps := 2 }
      | .ok download_results =>
        let successful_downloads := (download_results.filter (fun p => p.2.success)).length
        let total_files := (download_results.map (fun p => p.2.files_downloaded)).sum
        let workflow_data :=
          dictSet (dictSet workflow_data "download_results" (DataVal.itemMap download_results))
            "summary" (DataVal.summary successful_downloads request_ids.length total_files)
        { success := true,
          message := "Downloaded " ++ toString total_files ++ " files from " ++
            toString successful_downloads ++ "/" ++ toString request_ids.length ++ " requests",
          data := workflow_data, steps_completed := 2, total_steps := 2 }

/-- Embeds `CommonWorkflows.integration_monitoring_workflow`: find recent requests
for the integration types and produce a success/failure analysis; an empty
result set returns a SUCCESSFUL result with `requests_found = 0`.  The float
`success_rate`/`round` is embedded as the exact pair
`ratio (success_count * 100) total_requests`, and the message's rate
formatting is abstracted away; Python dict iteration order inside the
analysis is abstracted by `dedup`. -/
def integration_monitoring_workflow (env : WorkflowEnv)
    (integration_types : List String) : WorkflowResult :=
  match env.find with
  | .error e =>
    { success := false, message := "Monitoring workflow failed: " ++ e,
      data := [], steps_completed := 0, total_steps := 1 }
  | .ok all_requests =>
    if all_requests.isEmpty then
      { success := true, message := "No recent requests found for monitoring",
        data := [("integration_types", DataVal.strList integration_types),
                 ("requests_found", DataVal.nat 0)],
        steps_completed := 1, total_steps := 1 }
    else
      let success_count := all_requests.countP (fun r => r.Status == some 5)
      let failed_count := all_requests.countP (fun r => r.Status == some 4)
      let failed := all_requests.filter (fun r => r.Status == some 4)
      let failed_requests := failed.map (fun r =>
        (r.RequestID, r.DistrictID, r.DataRequestTypeName, r.RequestTime, r.RequestTimeEST))
      let districts_with_failures := (failed.map (·.DistrictID)).dedup
      let type_names := (all_requests.map (·.DataRequestTypeName)).dedup
      let by_type := type_names.map (fun name =>
        (name,
         all_requests.countP (fun r => r.DataRequestTypeName == name && r.Status == some 5),
         all_requests.countP (fun r => r.DataRequestTypeName == name && r.Status == some 4)))
      let district_list := (all_requests.map (·.DistrictID)).dedup
      let by_district := district_list.map (fun d =>
        (d,
         all_requests.countP (fun r => r.DistrictID == d && r.Status == some 5),
         all_requests.countP (fun r => r.DistrictID == d && r.Status == some 4)))
      let analysis : AnalysisData :=
        { success_count := success_count, failed_count := failed_count,
          by_type := by_type, by_district := by_district,
          failed_requests := failed_requests,
          districts_with_failures := districts_with_failures }
      let total_requests := all_requests.length
      let healthy_districts := (by_district.filter (fun e => e.2.2 == 0)).length
      let most_problematic_type :=
        match by_type with
        | [] => none
        | e :: rest =>
          some ((rest.foldl (fun best x => if x.2.2 > best.2.2 then x else best) e).1)
      let workflow_data :=
        [("total_requests", DataVal.nat total_requests),
         ("success_rate", DataVal.ratio (success_count * 100) total_requests),
         ("analysis", DataVal.analysis analysis),
         ("summary", DataVal.msummary healthy_districts
            districts_with_failures.length most_problematic_type)]
      { success := true, message := "Monitoring complete",
        data := workflow_data, steps_completed := 1, total_steps := 1 }

/-- A concrete environment whose `find_requests` returns no rows. -/
def envC2 : WorkflowEnv :=
  { find := .ok [],
    restore_files_batch := fun _ => .error "unused",
    download_files_batch := fun _ => .error "unused",
    rerun_requests := fun _ _ => .error "unused" }

/-- A concrete environment whose `find_requests` raises. -/
def envC6 : WorkflowEnv :=
  { find := .error "db down",
    restore_files_batch := fun _ => .ok [],
    download_files_batch := fun _ => .ok [],
    rerun_requests := fun _ _ =>
      .ok { request_ids := [], checksums_deleted := 0, queues_updated := 0 } }

/-! ### DatabaseManager / RequestManager (src/integration_tools/core/db_manager.py,
src/integration_tools/core/request_manager.py)

The relational store is embedded as lists of rows; SQL `IN` lists become
membership tests (an empty `IN ()` list matches nothing), SQL `NULL` becomes
`Option`, and Python string truthiness (`None` and `""` are falsy) is
`pyTruthy`. -/

/-- One row of the `Request` table. -/
structure Request where
  RequestID : Nat
  DistrictID : Nat
  DataRequestTypeID : Nat
  ImportedFileName : Option String
  Status : Option Nat
  RequestTime : Option Nat
  deriving DecidableEq, Repr

/-- One row of the `xpsDistrictUpload` table. -/
structure XpsDistrictUpload where
  xpsDistrictUploadID : Nat
  DistrictID : Nat
  DirectoryPath : Option String
  UploadTypeID : Nat
  ClassNameType : Nat
  Run : Nat
  deriving DecidableEq, Repr

/-- One row of the `UploadFileIntegrationChecksum` table. -/
structure ChecksumRow where
  XpsDistrictUploadID : Nat
  key : String
  deriving DecidableEq, Repr

/-- One row of the `xpsQueue` table. -/
structure QueueRow where
  xpsQueueID : Nat
  xpsDistrictUploadID : Nat
  xpsQueueStatusID : Nat
  xpsQueueResultID : Nat
  deriving DecidableEq, Repr

/-- The database state visible to the tool. -/
structure DB where
  requests : List Request
  requestTypes : List (Nat × String)
  districtUploads : List XpsDistrictUpload
  checksums : List ChecksumRow
  queues : List QueueRow
  deriving DecidableEq, Repr

/-- Python truthiness of an optional string (`None` and `""` are falsy). -/
def pyTruthy : Option String → Bool
  | none => false
  | some s => !s.isEmpty

/-- Python `a or b` on optional strings. -/
def pyOr (a b : Option String) : Option String := if pyTruthy a then a else b

/-- Embeds `DatabaseManager.get_directory_path_for_request`: the request's
`ImportedFileName` when truthy, else the district's upload `DirectoryPath`. -/
def get_directory_path_for_request (db : DB) (request_id : Nat) : Option String :=
  match db.requests.find? (fun r => r.RequestID == request_id) with
  | none => none
  | some r =>
    if pyTruthy r.ImportedFileName then r.ImportedFileName
    else
      match db.districtUploads.find? (fun du => du.DistrictID == r.DistrictID) with
      | none => none
      | some du => du.DirectoryPath

/-- The fixed `du.UploadTypeID = 5 AND du.ClassNameType = 2 AND du.Run = 1`
clauses plus the district / optional directory `IN` filters shared by
`clear_checksums` and `bump_latest_queue`. -/
def duClausesMatch (du : XpsDistrictUpload) (district_ids : List Nat)
    (directory_paths : Option (List String)) : Bool :=
  du.UploadTypeID == 5 && du.ClassNameType == 2 && du.Run == 1 &&
  district_ids.contains du.DistrictID &&
  (match directory_paths with
   | none => true
   | some dirs =>
     if dirs.isEmpty then true
     else
       match du.DirectoryPath with
       | some d => dirs.contains d
       | none => false)

/-- The `DELETE ufc ... JOIN dbo.xpsDistrictUpload du ... WHERE ...` row
predicate of `DatabaseManager.clear_checksums`. -/
def checksumTargeted (db : DB) (ufc : ChecksumRow) (district_ids : List Nat)
    (directory_paths : Option (List String)) (keys : Option (List String)) : Bool :=
  db.districtUploads.any (fun du =>
    du.xpsDistrictUploadID == ufc.XpsDistrictUploadID &&
    duClausesMatch du district_ids directory_paths) &&
  (match keys with
   | none => true
   | some ks => if ks.isEmpty then true else ks.contains ufc.key)

/-- Embeds `DatabaseManager.clear_checksums`: delete the targeted checksum rows and
report the rowcount. -/
def clear_checksums (db : DB) (district_ids : List Nat)
    (directory_paths : Option (List String)) (keys : Option (List String)) :
    Nat × DB :=
  let deleted := db.checksums.filter
    (fun ufc => checksumTargeted db ufc district_ids directory_paths keys)
  let kept := db.checksums.filter
    (fun ufc => !(checksumTargeted db ufc district_ids directory_paths keys))
  (deleted.length, { db with checksums := kept })

/-- Maximum of a list of naturals (SQL `MAX` over a group; 0 for empty). -/
def maxNatList : List Nat → Nat
  | [] => 0
  | x :: xs => Nat.max x (maxNatList xs)

/-- Does queue row `q` join a matching `xpsDistrictUpload` row of district
`d`?  (The subquery's `JOIN ... WHERE ... GROUP BY du.DistrictID`.) -/
def queueJoinsMatching (db : DB) (q : QueueRow) (district_ids : List Nat)
    (directory_paths : Option (List String)) (d : Nat) : Bool :=
  db.districtUploads.any (fun du =>
    du.xpsDistrictUploadID == q.xpsDistrictUploadID &&
    duClausesMatch du district_ids directory_paths && du.DistrictID == d)

/-- The subquery value `MAX(q2.xpsQueueID)` per district over the matching joins. -/
def bumpTargets (db : DB) (district_ids : List Nat)
    (directory_paths : Option (List String)) : List Nat :=
  ((db.districtUploads.map (·.DistrictID)).dedup).filterMap (fun d =>
    let qids := (db.queues.filter
      (fun q => queueJoinsMatching db q district_ids directory_paths d)).map (·.xpsQueueID)
    if qids.isEmpty then none else some (maxNatList qids))

/-- Embeds `DatabaseManager.bump_latest_queue`: set the latest matching queue row per
district to `xpsQueueStatusID = 2, xpsQueueResultID = 5`. -/
def bump_latest_queue (db : DB) (district_ids : List Nat)
    (directory_paths : Option (List String)) : Nat × DB :=
  let targets := bumpTargets db district_ids directory_paths
  let updated := (db.queues.filter (fun q => targets.contains q.xpsQueueID)).length
  let queues' := db.queues.map (fun q =>
    if targets.contains q.xpsQueueID then
      { q with xpsQueueStatusID := 2, xpsQueueResultID := 5 }
    else q)
  (updated, { db with queues := queues' })

/-- The district/path-collecting loop of `RequestManager.rerun_requests`:
ids whose request row is missing or whose directory path is falsy are skipped
with a printed warning. -/
def rerun_step (db : DB) (acc : List Nat × List String) (req_id : Nat) :
    List Nat × List String :=
  match db.requests.find? (fun r => r.RequestID == req_id) with
  | none => acc
  | some r =>
    match pyOr r.ImportedFileName (get_directory_path_for_request db r.RequestID) with
    | some p => if p.isEmpty then acc else (acc.1 ++ [r.DistrictID], acc.2 ++ [p])
    | none => acc

def rerun_collect (db : DB) (request_ids : List Nat) : List Nat × List String :=
  request_ids.foldl (rerun_step db) ([], [])

/-- Embeds `RequestManager.rerun_requests`: collect districts and paths, optionally
clear checksums, bump the latest queue rows, and report the counts. -/
def rerun_requests (db : DB) (request_ids : List Nat) (delete_checksums : Bool)
    (checksum_keys : Option (List String)) : RerunResult × DB :=
  let collected := rerun_collect db request_ids
  let cleared :=
    if delete_checksums then clear_checksums db collected.1 (some collected.2) checksum_keys
    else (0, db)
  let bumped := bump_latest_queue cleared.2 collected.1 (some collected.2)
  ({ request_ids := request_ids,
     checksums_deleted := if delete_checksums then cleared.1 else 0,
     queues_updated := bumped.1 }, bumped.2)

/-- The `request_to_path` map building loop of `RequestManager.restore_files`:
ids without a truthy directory path only get a printed warning. -/
def restore_step (db : DB) (request_to_path : List (Nat × List Char)) (req_id : Nat) :
    List (Nat × List Char) :=
  match get_directory_path_for_request db req_id with
  | some p =>
    if p.isEmpty then request_to_path
    else dictSet request_to_path req_id (db_windows_path_to_remote_sftp_path p.toList)
  | none => request_to_path

def restore_request_to_path (db : DB) (request_ids : List Nat) :
    List (Nat × List Char) :=
  request_ids.foldl (restore_step db) []

/-- An id contributes to `rerun_requests`: its request row exists and its
directory path is truthy. -/
def rerun_resolvable (db : DB) (req_id : Nat) : Bool :=
  match db.requests.find? (fun r => r.RequestID == req_id) with
  | none => false
  | some r => pyTruthy (pyOr r.ImportedFileName (get_directory_path_for_request db r.RequestID))

/-- An id contributes to `restore_files`: its directory path is truthy. -/
def restore_resolvable (db : DB) (req_id : Nat) : Bool :=
  pyTruthy (get_directory_path_for_request db req_id)

/-- A concrete database: request 10 resolves a directory path, id 11 has no
request row at all. -/
def reqC8 : Request :=
  { RequestID := 10, DistrictID := 1, DataRequestTypeID := 2,
    ImportedFileName := some "F:\\FTProot\\Districts\\NY\\roster.csv",
    Status := some 4, RequestTime := some 100 }

def dbC8 : DB :=
  { requests := [reqC8], requestTypes := [(2, "SAT")], districtUploads := [],
    checksums := [], queues := [] }

/-- SQL `Request.Status IN (statuses)` (`NULL` matches nothing). -/
def statusIn (st : Option Nat) (statuses : List Nat) : Bool :=
  match st with
  | some s => statuses.contains s
  | none => false

/-- Embeds `DataRequestType.Name ILIKE 'p%'`: ASCII case-insensitive name start. -/
def startsWithCI (p name : String) : Bool :=
  listStarts (lowerL p.toList) (lowerL name.toList)

/-- The `effective_type_ids` resolution of `find_latest_requests`: explicit
type ids plus the ids of types whose name starts with one of the given
name filters (`sorted(set(...))` is embedded as `dedup`; order of the id
list only shapes the SQL text). -/
def effectiveTypeIds (db : DB) (type_ids : List Nat) (type_name_filters : List String) :
    List Nat :=
  ((if type_ids.isEmpty then [] else type_ids) ++
    (if type_name_filters.isEmpty then []
     else (db.requestTypes.filter (fun t =>
       type_name_filters.any (fun p => startsWithCI p t.2))).map (·.1))).dedup

/-- The WHERE clauses of the latest-requests subquery (filters are applied
only when the corresponding argument list is non-empty, mirroring Python
truthiness of the arguments). -/
def requestPassesFilters (r : Request) (district_ids effective_type_ids statuses : List Nat) :
    Bool :=
  statusIn r.Status statuses &&
  (district_ids.isEmpty || district_ids.contains r.DistrictID) &&
  (effective_type_ids.isEmpty || effective_type_ids.contains r.DataRequestTypeID)

/-- The `since_date` filter (`NULL RequestTime` matches nothing). -/
def sinceOk (rt : Option Nat) (since_date : Option Nat) : Bool :=
  match since_date with
  | none => true
  | some d =>
    match rt with
    | some t => decide (d ≤ t)
    | none => false

/-- Insertion step for `ORDER BY ... DESC`. -/
def insertDescBy {α : Type} (key : α → Nat) (x : α) : List α → List α
  | [] => [x]
  | y :: ys => if key y ≤ key x then x :: y :: ys else y :: insertDescBy key x ys

/-- Insertion sort, descending by `key`. -/
def sortDescBy {α : Type} (key : α → Nat) : List α → List α
  | [] => []
  | x :: xs => insertDescBy key x (sortDescBy key xs)

/-- The latest-request subquery of `find_latest_requests`: for each
`(DistrictID, DataRequestTypeID)` group of the status/district/type-filtered
requests, the maximal `RequestID` (`MAX ... GROUP BY`). -/
def latestGroups (db : DB) (district_ids effective_type_ids statuses : List Nat) :
    List (Nat × Nat × Nat) :=
  let filtered := db.requests.filter
    (fun r => requestPassesFilters r district_ids effective_type_ids statuses)
  ((filtered.map (fun r => (r.DistrictID, r.DataRequestTypeID))).dedup).map (fun p =>
    (p.1, p.2, maxNatList ((filtered.filter (fun r =>
      r.DistrictID == p.1 && r.DataRequestTypeID == p.2)).map (·.RequestID))))

/-- The outer join of `find_latest_requests`: a `Request` row joins the
subquery on district, type and max id, joins `DataRequestType` for the name,
and passes the optional `since_date` filter; the `pytz` EST conversion is
embedded as the identity on the abstract timestamp. -/
def joinRow (db : DB) (since_date : Option Nat) (latest : List (Nat × Nat × Nat))
    (r : Request) : Option RequestRow :=
  if latest.any (fun g => g.1 == r.DistrictID && g.2.1 == r.DataRequestTypeID &&
      g.2.2 == r.RequestID) then
    match db.requestTypes.find? (fun t => t.1 == r.DataRequestTypeID) with
    | some t =>
      if sinceOk r.RequestTime since_date then
        some { RequestID := r.RequestID, DistrictID := r.DistrictID,
               DataRequestTypeID := r.DataRequestTypeID, DataRequestTypeName := t.2,
               ImportedFileName := r.ImportedFileName, Status := r.Status,
               RequestTime := r.RequestTime, RequestTimeEST := r.RequestTime }
      else none
    | none => none
  else none

/-- Embeds `DatabaseManager.find_latest_requests`: resolve effective type ids, take
the max `RequestID` per `(DistrictID, DataRequestTypeID)` group, join back to
`Request` and `DataRequestType`, and order by request time descending. -/
def find_latest_requests (db : DB) (type_ids : List Nat)
    (type_name_filters : List String) (district_ids : List Nat)
    (statuses : List Nat) (since_date : Option Nat) : List RequestRow :=
  let latest := latestGroups db district_ids
    (effectiveTypeIds db type_ids type_name_filters) statuses
  sortDescBy (fun row => row.RequestTime.getD 0)
    (db.requests.filterMap (joinRow db since_date latest))

/-- Splitter form: when the leading two characters are not both slashes,
`replaceDS` keeps the head. -/
theorem replaceDS_cons_ne (c : Char) (rest : List Char)
    (h : ∀ r' : List Char, c = '/' → rest = '/' :: r' → False) :
    replaceDS (c :: rest) = c :: replaceDS rest := by
  cases rest with
  | nil => simp [replaceDS]
  | cons d r' =>
    by_cases hc : c = '/'
    · have hd : d ≠ '/' := fun hd => h r' hc (by rw [hd])
      simp [replaceDS, hd]
    · simp [replaceDS, hc]

theorem hasDS_cons_ne (c : Char) (rest : List Char)
    (h : ∀ r' : List Char, c = '/' → rest = '/' :: r' → False) :
    hasDS (c :: rest) = hasDS rest := by
  cases rest with
  | nil => simp [hasDS]
  | cons d r' =>
    by_cases hc : c = '/'
    · have hd : d ≠ '/' := fun hd => h r' hc (by rw [hd])
      simp [hasDS, hd]
    · simp [hasDS, hc]

theorem replaceDS_length_le (l : List Char) : (replaceDS l).length ≤ l.length := by
  induction l using replaceDS.induct with
  | case1 rest ih => simp [replaceDS]; omega
  | case2 c rest h1 ih => rw [replaceDS_cons_ne c rest h1]; simpa using ih
  | case3 => simp [replaceDS]

theorem replaceDS_length_lt (l : List Char) (h : hasDS l = true) :
    (replaceDS l).length < l.length := by
  induction l using replaceDS.induct with
  | case1 rest ih =>
    have := replaceDS_length_le rest
    simp [replaceDS]; omega
  | case2 c rest h1 ih =>
    rw [hasDS_cons_ne c rest h1] at h
    rw [replaceDS_cons_ne c rest h1]
    simpa using ih h
  | case3 => simp [hasDS] at h

theorem collapseGo_nil (n : Nat) : collapseGo n [] = [] := by
  cases n <;> simp [collapseGo, hasDS]

theorem collapseGo_congr (n : Nat) : ∀ (m : Nat) (l : List Char),
    l.length ≤ n → l.length ≤ m → collapseGo n l = collapseGo m l := by
  induction n with
  | zero =>
    intro m l hn _
    have : l = [] := List.length_eq_zero.mp (Nat.le_zero.mp hn)
    subst this; simp [collapseGo_nil, collapseGo]
  | succ k ih =>
    intro m l hn hm
    cases m with
    | zero =>
      have : l = [] := List.length_eq_zero.mp (Nat.le_zero.mp hm)
      subst this; simp [collapseGo_nil, collapseGo, hasDS]
    | succ m' =>
      simp only [collapseGo]
      by_cases hd : hasDS l = true
      · simp only [hd, if_true]
        have hlt := replaceDS_length_lt l hd
        exact ih m' (replaceDS l) (by omega) (by omega)
      · simp [hd]

/-- The loop equation of `collapseSlashes`. -/
theorem collapseSlashes_step (l : List Char) :
    collapseSlashes l = if hasDS l then collapseSlashes (replaceDS l) else l := by
  unfold collapseSlashes
  cases hl : l.length with
  | zero =>
    have : l = [] := List.length_eq_zero.mp hl
    subst this; simp [collapseGo, hasDS]
  | succ k =>
    simp only [collapseGo]
    by_cases hd : hasDS l = true
    · simp only [hd, if_true]
      have hlt := replaceDS_length_lt l hd
      exact collapseGo_congr k (replaceDS l).length (replaceDS l) (by omega) (by omega)
    · simp [hd]

theorem hasDS_collapseSlashes (l : List Char) : hasDS (collapseSlashes l) = false := by
  rw [collapseSlashes_step]
  by_cases hd : hasDS l = true
  · simp only [hd, if_true]
    exact hasDS_collapseSlashes (replaceDS l)
  · simp [hd]
termination_by l.length
decreasing_by exact replaceDS_length_lt l hd

theorem collapseSlashes_of_hasDS_false {l : List Char} (h : hasDS l = false) :
    collapseSlashes l = l := by
  rw [collapseSlashes_step, h]; simp

theorem collapseSlashes_idem (l : List Char) :
    collapseSlashes (collapseSlashes l) = collapseSlashes l :=
  collapseSlashes_of_hasDS_false (hasDS_collapseSlashes l)

theorem replaceDS_head? (l : List Char) : (replaceDS l).head? = l.head? := by
  induction l using replaceDS.induct with
  | case1 rest ih => simp [replaceDS]
  | case2 c rest h1 ih => rw [replaceDS_cons_ne c rest h1]; simp
  | case3 => simp [replaceDS]

theorem replaceDS_eq_nil_iff (l : List Char) : replaceDS l = [] ↔ l = [] := by
  constructor
  · intro h
    cases l with
    | nil => rfl
    | cons c rest =>
      have := replaceDS_head? (c :: rest)
      rw [h] at this
      simp at this
  · intro h; subst h; simp [replaceDS]

theorem getLast?_cons_ne {α : Type} {x : List α} (c : α) (h : x ≠ []) :
    (c :: x).getLast? = x.getLast? := by
  cases x with
  | nil => exact absurd rfl h
  | cons d r => rfl

theorem replaceDS_getLast? (l : List Char) : (replaceDS l).getLast? = l.getLast? := by
  induction l using replaceDS.induct with
  | case1 rest ih =>
    simp only [replaceDS]
    cases hr : rest with
    | nil => simp [replaceDS]
    | cons d r' =>
      have hne : replaceDS rest ≠ [] := by
        rw [hr]
        intro hcon
        rw [replaceDS_eq_nil_iff] at hcon
        exact List.cons_ne_nil d r' hcon
      rw [← hr]
      rw [getLast?_cons_ne '/' hne, ih, getLast?_cons_ne '/' (by rw [hr]; simp),
        getLast?_cons_ne '/' (by rw [hr]; exact List.cons_ne_nil d r')]
  | case2 c rest h1 ih =>
    rw [replaceDS_cons_ne c rest h1]
    cases hr : rest with
    | nil => simp [replaceDS]
    | cons d r' =>
      have hne : replaceDS rest ≠ [] := by
        rw [hr]; intro hcon
        rw [replaceDS_eq_nil_iff] at hcon
        exact List.cons_ne_nil d r' hcon
      rw [← hr]
      rw [getLast?_cons_ne c hne, ih, getLast?_cons_ne c (by rw [hr]; exact List.cons_ne_nil d r')]
  | case3 => simp [replaceDS]

theorem mem_replaceDS {c : Char} {l : List Char} (h : c ∈ replaceDS l) : c ∈ l := by
  induction l using replaceDS.induct with
  | case1 rest ih =>
    simp only [replaceDS] at h
    rcases List.mem_cons.mp h with h | h
    · simp [h]
    · exact List.mem_cons_of_mem '/' (List.mem_cons_of_mem '/' (ih h))
  | case2 d rest h1 ih =>
    rw [replaceDS_cons_ne d rest h1] at h
    rcases List.mem_cons.mp h with h | h
    · simp [h]
    · exact List.mem_cons_of_mem d (ih h)
  | case3 => simp [replaceDS] at h

theorem collapseSlashes_head? (l : List Char) : (collapseSlashes l).head? = l.head? := by
  rw [collapseSlashes_step]
  by_cases hd : hasDS l = true
  · simp only [hd, if_true]
    rw [collapseSlashes_head? (replaceDS l), replaceDS_head?]
  · simp [hd]
termination_by l.length
decreasing_by exact replaceDS_length_lt l hd

theorem collapseSlashes_getLast? (l : List Char) : (collapseSlashes l).getLast? = l.getLast? := by
  rw [collapseSlashes_step]
  by_cases hd : hasDS l = true
  · simp only [hd, if_true]
    rw [collapseSlashes_getLast? (replaceDS l), replaceDS_getLast?]
  · simp [hd]
termination_by l.length
decreasing_by exact replaceDS_length_lt l hd

theorem mem_collapseSlashes {c : Char} {l : List Char} (h : c ∈ collapseSlashes l) : c ∈ l := by
  rw [collapseSlashes_step] at h
  by_cases hd : hasDS l = true
  · simp only [hd, if_true] at h
    exact mem_replaceDS (mem_collapseSlashes h)
  · simpa [hd] using h
termination_by l.length
decreasing_by exact replaceDS_length_lt l hd

theorem lowerC_slash : lowerC '/' = '/' := rfl

theorem lowerC_eq_slash {c : Char} (h : lowerC c = '/') : c = '/' := by
  unfold lowerC at h
  split at h <;> first | exact h | exact absurd h (by decide)

theorem lowerC_ne_slash {c : Char} (h : c ≠ '/') : lowerC c ≠ '/' :=
  fun hcon => h (lowerC_eq_slash hcon)

/-- Lowercasing cannot create or destroy a double-slash guard. -/
theorem lower_guard {c : Char} {rest : List Char}
    (h1 : ∀ r' : List Char, c = '/' → rest = '/' :: r' → False) :
    ∀ r' : List Char, lowerC c = '/' → List.map lowerC rest = '/' :: r' → False := by
  intro r' hc hr
  have hc' : c = '/' := lowerC_eq_slash hc
  cases rest with
  | nil => simp at hr
  | cons d rest' =>
    simp only [List.map_cons, List.cons.injEq] at hr
    exact h1 rest' hc' (by rw [lowerC_eq_slash hr.1])

theorem lowerL_replaceDS (l : List Char) : lowerL (replaceDS l) = replaceDS (lowerL l) := by
  induction l using replaceDS.induct with
  | case1 rest ih =>
    simp only [replaceDS, lowerL, List.map_cons] at *
    rw [ih]
    rfl
  | case2 c rest h1 ih =>
    rw [replaceDS_cons_ne c rest h1]
    simp only [lowerL, List.map_cons] at *
    rw [ih, replaceDS_cons_ne (lowerC c) (List.map lowerC rest) (lower_guard h1)]
  | case3 => simp [replaceDS, lowerL]

theorem hasDS_lowerL (l : List Char) : hasDS (lowerL l) = hasDS l := by
  induction l using hasDS.induct with
  | case1 rest => simp [lowerL, hasDS, lowerC_slash]
  | case2 c rest h1 ih =>
    have h1' := h1
    rw [hasDS_cons_ne c rest h1']
    simp only [lowerL, List.map_cons] at *
    rw [hasDS_cons_ne (lowerC c) (List.map lowerC rest) (lower_guard h1'), ih]
  | case3 => simp [lowerL, hasDS]

theorem lowerL_collapseSlashes (l : List Char) :
    lowerL (collapseSlashes l) = collapseSlashes (lowerL l) := by
  rw [collapseSlashes_step l, collapseSlashes_step (lowerL l), hasDS_lowerL]
  by_cases hd : hasDS l = true
  · simp only [hd, if_true]
    rw [lowerL_collapseSlashes (replaceDS l), lowerL_replaceDS]
  · simp [hd]
termination_by l.length
decreasing_by exact replaceDS_length_lt l hd

theorem occursIn_cons {pat : List Char} {c : Char} {l : List Char} :
    occursIn pat (c :: l) ↔ listStarts pat (c :: l) = true ∨ occursIn pat l := by
  constructor
  · rintro ⟨i, hi⟩
    cases i with
    | zero => exact Or.inl hi
    | succ j => exact Or.inr ⟨j, hi⟩
  · rintro (h | ⟨i, hi⟩)
    · exact ⟨0, h⟩
    · exact ⟨i + 1, hi⟩

theorem occursIn_nil {pat : List Char} (hpat : pat ≠ []) : ¬ occursIn pat [] := by
  rintro ⟨i, hi⟩
  cases pat with
  | nil => exact hpat rfl
  | cons p ps => simp [listStarts] at hi

theorem findSub_eq_none_iff {pat : List Char} (hpat : pat ≠ []) (l : List Char) :
    findSub pat l = none ↔ ¬ occursIn pat l := by
  induction l with
  | nil =>
    simp only [findSub]
    cases pat with
    | nil => exact absurd rfl hpat
    | cons p ps =>
      simp [listStarts, occursIn_nil hpat]
  | cons c rest ih =>
    simp only [findSub]
    by_cases hs : listStarts pat (c :: rest) = true
    · simp only [hs, if_true]
      constructor
      · intro h; exact absurd h (by simp)
      · intro h; exact absurd (occursIn_cons.mpr (Or.inl hs)) h
    · rw [if_neg hs, Option.map_eq_none', ih]
      rw [occursIn_cons]
      constructor
      · intro h hcon
        rcases hcon with h1 | h1
        · exact hs h1
        · exact h h1
      · intro h hcon
        exact h (Or.inr hcon)

theorem findSub_some_starts {pat l : List Char} {i : Nat} (h : findSub pat l = some i) :
    listStarts pat (l.drop i) = true := by
  induction l generalizing i with
  | nil =>
    simp only [findSub] at h
    split at h
    · rename_i hs
      cases h
      simpa using hs
    · cases h
  | cons c rest ih =>
    simp only [findSub] at h
    split at h
    · rename_i hs
      cases h
      simpa using hs
    · rcases Option.map_eq_some'.mp h with ⟨j, hj, rfl⟩
      simpa using ih hj

/-- If a concatenated pattern starts `s`, its right part starts `s` shifted. -/
theorem listStarts_append_drop {a b s : List Char} (h : listStarts (a ++ b) s = true) :
    listStarts b (s.drop a.length) = true := by
  induction a generalizing s with
  | nil => simpa using h
  | cons x a' ih =>
    cases s with
    | nil => simp [listStarts] at h
    | cons c t =>
      simp only [List.cons_append, listStarts, Bool.and_eq_true] at h
      simpa using ih h.2

theorem listStarts_single_iff (c : Char) (l : List Char) :
    listStarts [c] l = true ↔ l.head? = some c := by
  cases l with
  | nil => simp [listStarts]
  | cons d t => simp [listStarts, eq_comm]

/-- Starting occurrences of a pattern `xs ++ "/"` (no slash inside `xs`)
survive one `replace("//", "/")` pass. -/
theorem starts_replaceDS_fwd {xs : List Char} (hxs : '/' ∉ xs) :
    ∀ l : List Char, listStarts (xs ++ ['/']) l = true →
      listStarts (xs ++ ['/']) (replaceDS l) = true := by
  induction xs with
  | nil =>
    intro l h
    rw [List.nil_append] at *
    rw [listStarts_single_iff] at *
    rw [replaceDS_head?]
    exact h
  | cons x xs' ih =>
    intro l h
    have hx : x ≠ '/' := fun hcon => hxs (by rw [hcon]; exact List.mem_cons_self _ _)
    have hxs' : '/' ∉ xs' := fun hcon => hxs (List.mem_cons_of_mem x hcon)
    cases l with
    | nil => simp [listStarts] at h
    | cons c t =>
      simp only [List.cons_append, listStarts, Bool.and_eq_true, decide_eq_true_eq] at h
      obtain ⟨rfl, ht⟩ := h
      rw [replaceDS_cons_ne x t (fun r' hc _ => hx hc)]
      simp only [List.cons_append, listStarts, Bool.and_eq_true, decide_eq_true_eq]
      exact ⟨trivial, ih hxs' t ht⟩

/-- Starting occurrences of a pattern `xs ++ "/"` (no slash inside `xs`) in the
output of a `replace("//", "/")` pass come from occurrences at the same spot. -/
theorem starts_replaceDS_bwd {xs : List Char} (hxs : '/' ∉ xs) :
    ∀ l : List Char, listStarts (xs ++ ['/']) (replaceDS l) = true →
      listStarts (xs ++ ['/']) l = true := by
  induction xs with
  | nil =>
    intro l h
    rw [List.nil_append] at *
    rw [listStarts_single_iff] at *
    rw [replaceDS_head?] at h
    exact h
  | cons x xs' ih =>
    intro l h
    have hx : x ≠ '/' := fun hcon => hxs (by rw [hcon]; exact List.mem_cons_self _ _)
    have hxs' : '/' ∉ xs' := fun hcon => hxs (List.mem_cons_of_mem x hcon)
    cases l with
    | nil => simp [replaceDS, listStarts] at h
    | cons c t =>
      have hc : c = x := by
        have h1 := replaceDS_head? (c :: t)
        cases hrep : replaceDS (c :: t) with
        | nil => rw [hrep] at h; simp [listStarts] at h
        | cons d t' =>
          rw [hrep] at h h1
          simp only [List.cons_append, listStarts, Bool.and_eq_true, decide_eq_true_eq] at h
          simp only [List.head?] at h1
          injection h1 with h1
          rw [← h1, h.1]
      subst hc
      rw [replaceDS_cons_ne c t (fun r' hcc _ => hx hcc)] at h
      simp only [List.cons_append, listStarts, Bool.and_eq_true, decide_eq_true_eq] at h ⊢
      exact ⟨trivial, ih hxs' t h.2⟩

/-- Occurrences anywhere in the output of a `replace("//", "/")` pass come
from occurrences in the input. -/
theorem occursIn_replaceDS_bwd {xs : List Char} (hxs : '/' ∉ xs) :
    ∀ l : List Char, occursIn (xs ++ ['/']) (replaceDS l) → occursIn (xs ++ ['/']) l := by
  intro l
  induction l using replaceDS.induct with
  | case1 rest ih =>
    intro h
    simp only [replaceDS] at h
    rcases occursIn_cons.mp h with h | h
    · cases xs with
      | nil =>
        exact ⟨0, by simp [listStarts]⟩
      | cons x xs' =>
        have hx : x ≠ '/' := fun hcon => hxs (by rw [hcon]; exact List.mem_cons_self _ _)
        simp only [List.cons_append, listStarts, Bool.and_eq_true, decide_eq_true_eq] at h
        exact absurd h.1 hx
    · rcases ih h with ⟨i, hi⟩
      exact ⟨i + 2, hi⟩
  | case2 c rest h1 ih =>
    intro h
    rw [replaceDS_cons_ne c rest h1] at h
    rcases occursIn_cons.mp h with h | h
    · have := starts_replaceDS_bwd hxs (c :: rest)
      rw [replaceDS_cons_ne c rest h1] at this
      exact ⟨0, by simpa using this h⟩
    · rcases ih h with ⟨i, hi⟩
      exact ⟨i + 1, hi⟩
  | case3 =>
    intro h
    simp only [replaceDS] at h
    exact h

theorem starts_collapseSlashes_fwd {xs : List Char} (hxs : '/' ∉ xs) (l : List Char)
    (h : listStarts (xs ++ ['/']) l = true) :
    listStarts (xs ++ ['/']) (collapseSlashes l) = true := by
  rw [collapseSlashes_step]
  by_cases hd : hasDS l = true
  · simp only [hd, if_true]
    exact starts_collapseSlashes_fwd hxs (replaceDS l) (starts_replaceDS_fwd hxs l h)
  · simpa [hd] using h
termination_by l.length
decreasing_by exact replaceDS_length_lt l hd

theorem occursIn_collapseSlashes_bwd {xs : List Char} (hxs : '/' ∉ xs) (l : List Char)
    (h : occursIn (xs ++ ['/']) (collapseSlashes l)) : occursIn (xs ++ ['/']) l := by
  rw [collapseSlashes_step] at h
  by_cases hd : hasDS l = true
  · simp only [hd, if_true] at h
    exact occursIn_replaceDS_bwd hxs l
      (occursIn_collapseSlashes_bwd hxs (replaceDS l) h)
  · simpa [hd] using h
termination_by l.length
decreasing_by exact replaceDS_length_lt l hd

theorem dropWhile_eq_self_of_head {p : Char → Bool} {l : List Char}
    (h : ∀ c, l.head? = some c → p c = false) : l.dropWhile p = l := by
  cases l with
  | nil => rfl
  | cons c t => simp [List.dropWhile_cons, h c rfl]

theorem head?_dropWhile {p : Char → Bool} {l : List Char} {c : Char}
    (h : (l.dropWhile p).head? = some c) : p c = false := by
  induction l with
  | nil => simp at h
  | cons d t ih =>
    rw [List.dropWhile_cons] at h
    split at h
    · exact ih h
    · rename_i hp
      simp only [List.head?] at h
      injection h with h
      subst h
      simpa using hp

theorem getLast?_of_suffix {s l : List Char} (hs : s <:+ l) (hne : s ≠ []) :
    l.getLast? = s.getLast? := by
  obtain ⟨t, rfl⟩ := hs
  exact List.getLast?_append_of_ne_nil t hne

theorem isWs_normSlash {c : Char} (h : isWs c = false) : isWs (normSlash c) = false := by
  unfold normSlash
  split
  · decide
  · exact h

theorem normSlash_ne_bs (c : Char) : normSlash c ≠ '\\' := by
  unfold normSlash
  split
  · decide
  · assumption

theorem pyStrip_eq_self {l : List Char}
    (hh : ∀ c, l.head? = some c → isWs c = false)
    (hl : ∀ c, l.getLast? = some c → isWs c = false) : pyStrip l = l := by
  unfold pyStrip lstripWs rstripWs
  rw [dropWhile_eq_self_of_head hh]
  rw [dropWhile_eq_self_of_head (fun c hc => hl c (by rwa [List.head?_reverse] at hc))]
  exact List.reverse_reverse l

theorem normSlashes_eq_self {l : List Char} (h : ∀ c ∈ l, c ≠ '\\') :
    normSlashes l = l := by
  unfold normSlashes
  induction l with
  | nil => rfl
  | cons c t ih =>
    rw [List.map_cons, ih (fun d hd => h d (List.mem_cons_of_mem c hd))]
    have : normSlash c = c := by
      unfold normSlash
      split
      · rename_i hc; exact absurd hc (h c (List.mem_cons_self c t))
      · rfl
    rw [this]

theorem findSub_of_starts {pat l : List Char} (hpat : pat ≠ []) (h : listStarts pat l = true) :
    findSub pat l = some 0 := by
  cases l with
  | nil =>
    cases pat with
    | nil => exact absurd rfl hpat
    | cons p ps => simp [listStarts] at h
  | cons c t => simp [findSub, h]

theorem occursIn_of_append {a pat l : List Char} (h : occursIn (a ++ pat) l) :
    occursIn pat l := by
  obtain ⟨i, hi⟩ := h
  refine ⟨a.length + i, ?_⟩
  rw [Nat.add_comm, ← List.drop_drop]
  exact listStarts_append_drop hi

theorem districtsPat_ne_nil : districtsPat ≠ [] := by decide

theorem ftprootPat_eq : ftprootPat = "ftproot/".toList ++ districtsPat := by decide

theorem no_slash_districts_stem : '/' ∉ "districts".toList := by decide

theorem districtsPat_split : districtsPat = "districts".toList ++ ['/'] := by decide

theorem out_shape (q : List Char) : (if q.isEmpty then ['/'] else '/' :: q) = '/' :: q := by
  cases q <;> simp

/-- A list satisfying the resolver's output invariants is a fixed point of the
resolver once prefixed with the leading slash (provided no drive-letter colon). -/
theorem resolver_fixed (q : List Char)
    (hbs : ∀ c ∈ q, c ≠ '\\')
    (hlast : ∀ c, q.getLast? = some c → isWs c = false)
    (hhead : ∀ c, q.head? = some c → c ≠ '/')
    (hds : hasDS q = false)
    (hcolon : ∀ c, q.head? = some c → c ≠ ':')
    (hocc : listStarts districtsPat (lowerL q) = true ∨ ¬ occursIn districtsPat (lowerL q)) :
    db_windows_path_to_remote_sftp_path ('/' :: q) = '/' :: q := by
  have h0 : pyStrip ('/' :: q) = '/' :: q := by
    apply pyStrip_eq_self
    · intro c hc
      simp only [List.head?] at hc
      injection hc with hc
      subst hc; decide
    · intro c hc
      cases hq : q with
      | nil => subst hq; simp [List.getLast?] at hc; subst hc; decide
      | cons d t =>
        subst hq
        rw [getLast?_cons_ne '/' (List.cons_ne_nil d t)] at hc
        exact hlast c hc
  have h1 : normSlashes ('/' :: q) = '/' :: q := by
    apply normSlashes_eq_self
    intro c hc
    rcases List.mem_cons.mp hc with rfl | hc
    · decide
    · exact hbs c hc
  have h2 : dropDrive ('/' :: q) = '/' :: q := by
    cases hq : q with
    | nil => rfl
    | cons d t =>
      have hd : d ≠ ':' := hcolon d (by rw [hq]; rfl)
      simp [dropDrive, hd]
  have h3 : lstripSlash ('/' :: q) = q := by
    unfold lstripSlash
    rw [List.dropWhile_cons]
    simp only [decide_eq_true_eq, if_pos rfl]
    apply dropWhile_eq_self_of_head
    intro c hc
    simpa using hhead c hc
  have h5 : collapseSlashes q = q := collapseSlashes_of_hasDS_false hds
  simp only [db_windows_path_to_remote_sftp_path]
  rw [h0, h1, h2, h3]
  rcases hocc with hA | hB
  · have hf : findSub districtsPat (lowerL q) = some 0 :=
      findSub_of_starts districtsPat_ne_nil hA
    rw [hf]
    simp only [List.drop_zero]
    rw [h5, out_shape]
  · have hf : findSub districtsPat (lowerL q) = none :=
      (findSub_eq_none_iff districtsPat_ne_nil _).mpr hB
    have hf2 : findSub ftprootPat (lowerL q) = none := by
      apply (findSub_eq_none_iff (by decide) _).mpr
      intro hcon
      exact hB (occursIn_of_append (ftprootPat_eq ▸ hcon))
    rw [hf, hf2, h5, out_shape]

theorem dropDrive_suffix (l : List Char) : dropDrive l <:+ l := by
  cases l with
  | nil => exact List.suffix_refl []
  | cons a t =>
    cases t with
    | nil => exact List.suffix_refl [a]
    | cons b rest =>
      by_cases hb : b = ':'
      · simp only [dropDrive, hb, if_pos]
        exact ⟨[a, ':'], rfl⟩
      · simp only [dropDrive, hb, if_neg, ite_false]
        exact List.suffix_refl _

theorem lastOk_of_suffix {s l : List Char} (hs : s <:+ l)
    (h : ∀ c, l.getLast? = some c → isWs c = false) :
    ∀ c, s.getLast? = some c → isWs c = false := by
  intro c hc
  have hne : s ≠ [] := by
    intro hcon; rw [hcon] at hc; simp at hc
  exact h c (by rw [getLast?_of_suffix hs hne]; exact hc)

theorem bsOk_of_suffix {s l : List Char} (hs : s <:+ l)
    (h : ∀ c ∈ l, c ≠ '\\') : ∀ c ∈ s, c ≠ '\\' :=
  fun c hc => h c (hs.subset hc)

/-- Every output of the resolver is a slash followed by a tail satisfying the
fixed-point invariants. -/
theorem resolver_shape (s : List Char) :
    ∃ q, db_windows_path_to_remote_sftp_path s = '/' :: q ∧
      (∀ c ∈ q, c ≠ '\\') ∧
      (∀ c, q.getLast? = some c → isWs c = false) ∧
      (∀ c, q.head? = some c → c ≠ '/') ∧
      hasDS q = false ∧
      (listStarts districtsPat (lowerL q) = true ∨ ¬ occursIn districtsPat (lowerL q)) := by
  have hlast0 : ∀ c, (pyStrip s).getLast? = some c → isWs c = false := by
    intro c hc
    unfold pyStrip rstripWs at hc
    rw [List.getLast?_reverse] at hc
    exact head?_dropWhile hc
  have hbs1 : ∀ c ∈ normSlashes (pyStrip s), c ≠ '\\' := by
    intro c hc
    obtain ⟨a, _, rfl⟩ := List.mem_map.mp hc
    exact normSlash_ne_bs a
  have hlast1 : ∀ c, (normSlashes (pyStrip s)).getLast? = some c → isWs c = false := by
    intro c hc
    unfold normSlashes at hc
    rw [List.getLast?_map] at hc
    rcases hl : (pyStrip s).getLast? with _ | a
    · rw [hl] at hc; simp at hc
    · rw [hl] at hc
      simp only [Option.map_some'] at hc
      injection hc with hc
      subst hc
      exact isWs_normSlash (hlast0 a hl)
  have hsuf2 := dropDrive_suffix (normSlashes (pyStrip s))
  have hbs2 := bsOk_of_suffix hsuf2 hbs1
  have hlast2 := lastOk_of_suffix hsuf2 hlast1
  have hsuf3 : lstripSlash (dropDrive (normSlashes (pyStrip s))) <:+
      dropDrive (normSlashes (pyStrip s)) := List.dropWhile_suffix _
  have hbs3 := bsOk_of_suffix hsuf3 hbs2
  have hlast3 := lastOk_of_suffix hsuf3 hlast2
  have hhead3 : ∀ c, (lstripSlash (dropDrive (normSlashes (pyStrip s)))).head? = some c →
      c ≠ '/' := by
    intro c hc
    have := head?_dropWhile hc
    simpa using this
  set p3 := lstripSlash (dropDrive (normSlashes (pyStrip s))) with hp3
  -- case analysis on the districts marker search
  simp only [db_windows_path_to_remote_sftp_path]
  rcases hfind : findSub districtsPat (lowerL p3) with _ | i
  · rcases hfind2 : findSub ftprootPat (lowerL p3) with _ | j
    · -- neither marker occurs: p4 = p3
      refine ⟨collapseSlashes p3, ?_, ?_, ?_, ?_, hasDS_collapseSlashes p3, Or.inr ?_⟩
      · rw [out_shape]
      · exact fun c hc => hbs3 c (mem_collapseSlashes hc)
      · exact fun c hc => hlast3 c (by rw [← collapseSlashes_getLast?]; exact hc)
      · exact fun c hc => hhead3 c (by rw [← collapseSlashes_head?]; exact hc)
      · intro hcon
        rw [lowerL_collapseSlashes] at hcon
        have := occursIn_collapseSlashes_bwd no_slash_districts_stem (lowerL p3)
          (districtsPat_split ▸ hcon)
        exact (findSub_eq_none_iff districtsPat_ne_nil _).mp hfind (districtsPat_split ▸ this)
    · -- fallback marker found: p4 = p3.drop (j + 8)
      have hst : listStarts districtsPat (lowerL (p3.drop (j + 8))) = true := by
        have h1 := findSub_some_starts hfind2
        have h2 := listStarts_append_drop (ftprootPat_eq ▸ h1)
        have h3 : ("ftproot/".toList).length = 8 := by decide
        rw [h3, List.drop_drop] at h2
        simp only [lowerL] at h2 ⊢
        rw [← List.map_drop] at h2
        exact h2
      refine ⟨collapseSlashes (p3.drop (j + 8)), ?_, ?_, ?_, ?_,
        hasDS_collapseSlashes _, Or.inl ?_⟩
      · rw [out_shape]
      · exact fun c hc => bsOk_of_suffix (List.drop_suffix _ _) hbs3 c (mem_collapseSlashes hc)
      · exact fun c hc => lastOk_of_suffix (List.drop_suffix _ _) hlast3 c
          (by rw [← collapseSlashes_getLast?]; exact hc)
      · intro c hc
        rw [collapseSlashes_head?] at hc
        have := districtsPat_split ▸ hst
        intro hcon
        subst hcon
        cases hdrop : p3.drop (j + 8) with
        | nil => rw [hdrop] at hc; simp at hc
        | cons d t =>
          rw [hdrop] at hc
          simp only [List.head?] at hc
          injection hc with hc
          subst hc
          rw [hdrop] at hst
          simp only [lowerL, List.map_cons] at hst
          rw [districtsPat_split] at hst
          simp only [List.cons_append, listStarts, Bool.and_eq_true, decide_eq_true_eq] at hst
          exact absurd hst.1 (by decide)
      · rw [lowerL_collapseSlashes]
        exact districtsPat_split ▸
          starts_collapseSlashes_fwd no_slash_districts_stem _ (districtsPat_split ▸ hst)
  · -- main marker found: p4 = p3.drop i
    have hst : listStarts districtsPat (lowerL (p3.drop i)) = true := by
      have h1 := findSub_some_starts hfind
      simp only [lowerL] at h1 ⊢
      rw [← List.map_drop] at h1
      exact h1
    refine ⟨collapseSlashes (p3.drop i), ?_, ?_, ?_, ?_,
      hasDS_collapseSlashes _, Or.inl ?_⟩
    · rw [out_shape]
    · exact fun c hc => bsOk_of_suffix (List.drop_suffix _ _) hbs3 c (mem_collapseSlashes hc)
    · exact fun c hc => lastOk_of_suffix (List.drop_suffix _ _) hlast3 c
        (by rw [← collapseSlashes_getLast?]; exact hc)
    · intro c hc
      rw [collapseSlashes_head?] at hc
      intro hcon
      subst hcon
      cases hdrop : p3.drop i with
      | nil => rw [hdrop] at hc; simp at hc
      | cons d t =>
        rw [hdrop] at hc
        simp only [List.head?] at hc
        injection hc with hc
        subst hc
        rw [hdrop] at hst
        simp only [lowerL, List.map_cons] at hst
        have h9 : districtsPat = 'd' :: "istricts/".toList := by decide
        rw [h9] at hst
        simp only [listStarts, Bool.and_eq_true, decide_eq_true_eq] at hst
        exact absurd hst.1.symm (by decide)
    · rw [lowerL_collapseSlashes]
      exact districtsPat_split ▸
        starts_collapseSlashes_fwd no_slash_districts_stem _ (districtsPat_split ▸ hst)

/-- C4 counterexample: the path resolver is not idempotent on every input.
For the input string `"a::b"` the resolver yields `"/:b"` (only the first
drive-letter colon pair is dropped), and resolving `"/:b"` again drops the
leading `"/:"` as a drive marker, giving `"/b"`. -/
theorem C4_resolver_not_idempotent :
    db_windows_path_to_remote_sftp_path (db_windows_path_to_remote_sftp_path "a::b".toList) ≠
      db_windows_path_to_remote_sftp_path "a::b".toList := by decide

/-- C4 (amended): the path resolver is idempotent on every input whose
resolved output does not carry a colon in its second position (the only case
in which the drive-letter rule fires again); in particular re-resolving an
already-POSIX `/Districts/...` path returns it unchanged. -/
theorem C4_resolver_idem (s : List Char)
    (h : (db_windows_path_to_remote_sftp_path s)[1]? ≠ some ':') :
    db_windows_path_to_remote_sftp_path (db_windows_path_to_remote_sftp_path s) =
      db_windows_path_to_remote_sftp_path s := by
  obtain ⟨q, hq, hbs, hlast, hhead, hds, hocc⟩ := resolver_shape s
  rw [hq] at h ⊢
  have hcolon : ∀ c, q.head? = some c → c ≠ ':' := by
    intro c hc hcon
    subst hcon
    apply h
    rw [show (('/' :: q)[1]? = q.head?) from by
      simp [List.head?_eq_getElem?]]
    exact hc
  exact resolver_fixed q hbs hlast hhead hds hcolon hocc

/-- Witness for C4_resolver_idem at the repository's own test vector. -/
theorem C4_resolver_idem_witness :
    ((db_windows_path_to_remote_sftp_path "F:\\FTProot\\Districts\\State\\District\\File.csv".toList)[1]? ≠ some ':') ∧
      db_windows_path_to_remote_sftp_path
          (db_windows_path_to_remote_sftp_path "F:\\FTProot\\Districts\\State\\District\\File.csv".toList) =
        db_windows_path_to_remote_sftp_path "F:\\FTProot\\Districts\\State\\District\\File.csv".toList :=
  ⟨by decide, C4_resolver_idem _ (by decide)⟩

theorem length_dictSet {κ α : Type} [DecidableEq κ] (m : List (κ × α)) (k : κ) (v : α) :
    (dictSet m k v).length ≤ m.length + 1 := by
  induction m with
  | nil => simp [dictSet]
  | cons e rest ih =>
    unfold dictSet
    split
    · simp
    · simpa using Nat.succ_le_succ ih

theorem mem_dictSet {κ α : Type} [DecidableEq κ] {m : List (κ × α)} {k : κ} {v : α}
    {p : κ × α} (h : p ∈ dictSet m k v) : p ∈ m ∨ p = (k, v) := by
  induction m with
  | nil => simp [dictSet] at h; exact Or.inr h
  | cons e rest ih =>
    unfold dictSet at h
    split at h
    · rcases List.mem_cons.mp h with h | h
      · exact Or.inr h
      · exact Or.inl (List.mem_cons_of_mem e h)
    · rcases List.mem_cons.mp h with h | h
      · exact Or.inl (h ▸ List.mem_cons_self e rest)
      · rcases ih h with h | h
        · exact Or.inl (List.mem_cons_of_mem e h)
        · exact Or.inr h

theorem dictGet?_dictSet_self {κ α : Type} [DecidableEq κ] (m : List (κ × α)) (k : κ) (v : α) :
    dictGet? (dictSet m k v) k = some v := by
  induction m with
  | nil => simp [dictSet, dictGet?, List.find?]
  | cons e rest ih =>
    unfold dictSet
    split
    · simp [dictGet?, List.find?]
    · rename_i hne
      simp only [dictGet?, List.find?_cons, decide_eq_true_eq]
      rw [decide_eq_false hne]
      simpa [dictGet?] using ih

theorem dictGet?_dictSet_ne {κ α : Type} [DecidableEq κ] (m : List (κ × α)) (k k' : κ) (v : α)
    (h : k' ≠ k) : dictGet? (dictSet m k v) k' = dictGet? m k' := by
  induction m with
  | nil =>
    simp only [dictSet, dictGet?, List.find?]
    rw [decide_eq_false (fun hc => h hc.symm)]
  | cons e rest ih =>
    unfold dictSet
    split
    · rename_i heq
      simp only [dictGet?, List.find?_cons]
      rw [decide_eq_false (fun hc => h hc.symm), decide_eq_false (fun hc => h (heq ▸ hc).symm)]
    · simp only [dictGet?, List.find?_cons]
      by_cases he : e.1 = k'
      · rw [decide_eq_true he]
      · rw [decide_eq_false he]
        simpa [dictGet?] using ih

theorem restore_single_eq_download_single (op : Nat → ItemOutcome) (req_id : Nat) :
    restore_single op req_id = download_single op req_id := rfl

theorem download_single_ok {op : Nat → ItemOutcome} {req_id : Nat} {m : List (Nat × ItemResult)}
    (h : op req_id = .ok m) :
    download_single op req_id = .ok (req_id, itemValue op req_id) := by
  simp only [download_single, itemValue, h]
  rcases hg : dictGet? m req_id with _ | r <;> simp [hg]

theorem download_single_ok_inv {op : Nat → ItemOutcome} {req_id k : Nat} {dr : ItemResult}
    (h : download_single op req_id = .ok (k, dr)) :
    k = req_id ∧ dr = itemValue op req_id ∧ ∃ m, op req_id = .ok m := by
  rcases hop : op req_id with m | e
  · simp only [download_single, hop] at h
    simp only [itemValue, hop]
    rcases hg : dictGet? m req_id with _ | r <;>
      simp only [hg, Except.ok.injEq, Prod.mk.injEq] at h <;>
      exact ⟨h.1.symm, h.2.symm, m, rfl⟩
  · simp [download_single, hop] at h

theorem foldl_record_length (rs : List (Except String (Nat × ItemResult)))
    (acc : List (Nat × ItemResult)) :
    (rs.foldl recordResult acc).length ≤ acc.length + rs.length := by
  induction rs generalizing acc with
  | nil => simp
  | cons r rest ih =>
    rw [List.foldl_cons]
    calc (rest.foldl recordResult (recordResult acc r)).length
        ≤ (recordResult acc r).length + rest.length := ih _
      _ ≤ acc.length + (r :: rest).length := by
          have : (recordResult acc r).length ≤ acc.length + 1 := by
            rcases r with e | ⟨k, dr⟩
            · simp [recordResult]
            · simpa [recordResult] using length_dictSet acc k dr
          simp only [List.length_cons]
          omega

theorem foldl_record_inv (P : Nat × ItemResult → Prop)
    (rs : List (Except String (Nat × ItemResult))) (acc : List (Nat × ItemResult))
    (hacc : ∀ p ∈ acc, P p)
    (hrs : ∀ req_id dr, Except.ok (req_id, dr) ∈ rs → P (req_id, dr)) :
    ∀ p ∈ rs.foldl recordResult acc, P p := by
  induction rs generalizing acc with
  | nil => simpa using hacc
  | cons r rest ih =>
    rw [List.foldl_cons]
    apply ih
    · intro p hp
      unfold recordResult at hp
      rcases r with e | ⟨k, dr⟩
      · exact hacc p hp
      · rcases mem_dictSet hp with hm | rfl
        · exact hacc p hm
        · exact hrs k dr (List.mem_cons_self _ _)
    · exact fun req_id dr hmem => hrs req_id dr (List.mem_cons_of_mem r hmem)

theorem foldl_record_get_none (rs : List (Except String (Nat × ItemResult)))
    (acc : List (Nat × ItemResult)) (id : Nat)
    (hid : ∀ k dr, Except.ok (k, dr) ∈ rs → k ≠ id) :
    dictGet? (rs.foldl recordResult acc) id = dictGet? acc id := by
  induction rs generalizing acc with
  | nil => rfl
  | cons r rest ih =>
    rw [List.foldl_cons]
    rw [ih _ (fun k dr hmem => hid k dr (List.mem_cons_of_mem r hmem))]
    unfold recordResult
    rcases r with e | ⟨k, dr⟩
    · rfl
    · exact dictGet?_dictSet_ne acc k id dr (fun hc => hid k dr (List.mem_cons_self _ _) hc.symm)

theorem foldl_record_get_stays (rs : List (Except String (Nat × ItemResult)))
    (acc : List (Nat × ItemResult)) (id : Nat) (v : ItemResult)
    (hacc : dictGet? acc id = some v)
    (hsame : ∀ k dr, Except.ok (k, dr) ∈ rs → k = id → dr = v) :
    dictGet? (rs.foldl recordResult acc) id = some v := by
  induction rs generalizing acc with
  | nil => simpa using hacc
  | cons r rest ih =>
    rw [List.foldl_cons]
    apply ih
    · unfold recordResult
      rcases r with e | ⟨k, dr⟩
      · exact hacc
      · by_cases hk : k = id
        · subst hk
          rw [hsame k dr (List.mem_cons_self _ _) rfl]
          exact dictGet?_dictSet_self acc k v
        · rw [dictGet?_dictSet_ne acc k id dr (fun hc => hk hc.symm)]
          exact hacc
    · exact fun k dr hmem hk => hsame k dr (List.mem_cons_of_mem r hmem) hk

theorem batch_get_ok {op : Nat → ItemOutcome} {ids : List Nat} {id : Nat}
    {m : List (Nat × ItemResult)} (hm : op id = .ok m) (hmem : id ∈ ids)
    (acc : List (Nat × ItemResult)) :
    dictGet? ((ids.map (download_single op)).foldl recordResult acc) id =
      some (itemValue op id) := by
  induction ids generalizing acc with
  | nil => cases hmem
  | cons j rest ih =>
    rw [List.map_cons, List.foldl_cons]
    by_cases hj : j = id
    · subst hj
      have hrec : recordResult acc (download_single op j) =
          dictSet acc j (itemValue op j) := by
        rw [download_single_ok hm]
        rfl
      rw [hrec]
      apply foldl_record_get_stays
      · exact dictGet?_dictSet_self acc j (itemValue op j)
      · intro k dr hmemr hk
        subst hk
        rcases List.mem_map.mp hmemr with ⟨i, _, hi⟩
        rcases download_single_ok_inv hi with ⟨hik, hdr, _⟩
        rw [hdr, hik]
    · rcases List.mem_cons.mp hmem with rfl | hmem'
      · exact absurd rfl hj
      · exact ih hmem' _

theorem batch_get_exn {op : Nat → ItemOutcome} {ids : List Nat} {id : Nat} {e : String}
    (he : op id = .exn e) (acc : List (Nat × ItemResult)) :
    dictGet? ((ids.map (download_single op)).foldl recordResult acc) id =
      dictGet? acc id := by
  apply foldl_record_get_none
  intro k dr hmem hk
  subst hk
  rcases List.mem_map.mp hmem with ⟨i, _, hi⟩
  rcases download_single_ok_inv hi with ⟨rfl, _, m, hms⟩
  rw [hms] at he
  cases he

theorem itemValue_of_failed {op : Nat → ItemOutcome} {id : Nat} (hf : itemFailed op id) :
    (itemValue op id).success = false := by
  rcases hop : op id with m | e
  · simp only [itemFailed, hop] at hf
    simp only [itemValue, hop]
    rcases hg : dictGet? m id with _ | r <;> simp only [hg] at hf ⊢
    exact hf
  · simp only [itemValue, hop]

theorem batch_entry_itemValue {op : Nat → ItemOutcome} {ids : List Nat}
    {id : Nat} {r : ItemResult} (hmem : (id, r) ∈ download_files_batch op ids) :
    r = itemValue op id := by
  refine foldl_record_inv (fun p => p.2 = itemValue op p.1)
    (ids.map (download_single op)) [] (by simp) ?_ (id, r) hmem
  intro req_id dr hmemr
  rcases List.mem_map.mp hmemr with ⟨i, _, hi⟩
  rcases download_single_ok_inv hi with ⟨rfl, hdr, _⟩
  exact hdr

/-- C1 counterexample: an exception raised while processing one item is NOT
recorded in the returned result map as a `success = false` entry for that id.
With request 1 raising and request 2 succeeding, the batch result map of
`download_files_batch` has no entry at all for request 1 (the loop prints the
error and `continue`s) while request 2 is still processed. -/
theorem C1_exception_entry_missing :
    dictGet? (download_files_batch opC1 [1, 2]) 1 = none ∧
    dictGet? (download_files_batch opC1 [1, 2]) 2 = some { success := true } := by decide

/-- C1 (amended): an exception raised while processing one item is logged and
skipped: the returned result map of `download_files_batch` /
`restore_files_batch` contains no entry for that id, while every other id whose
per-item call returned normally still gets its entry; the batch never aborts
because of one item's exception. -/
theorem C1_batch_item_exception (op : Nat → ItemOutcome) (ids : List Nat) :
    (∀ id ∈ ids, ∀ e, op id = .exn e →
      dictGet? (download_files_batch op ids) id = none ∧
      dictGet? (restore_files_batch op ids) id = none) ∧
    (∀ id ∈ ids, ∀ m, op id = .ok m →
      dictGet? (download_files_batch op ids) id = some (itemValue op id) ∧
      dictGet? (restore_files_batch op ids) id = some (itemValue op id)) := by
  have hrd : restore_files_batch op ids = download_files_batch op ids := rfl
  constructor
  · intro id _ e he
    have h1 : dictGet? (download_files_batch op ids) id = none := by
      unfold download_files_batch
      rw [batch_get_exn he]
      rfl
    exact ⟨h1, by rw [hrd]; exact h1⟩
  · intro id hid m hm
    have h1 : dictGet? (download_files_batch op ids) id = some (itemValue op id) := by
      unfold download_files_batch
      exact batch_get_ok hm hid []
    exact ⟨h1, by rw [hrd]; exact h1⟩

/-- Witness for C1_batch_item_exception at the concrete operation `opC1`. -/
theorem C1_batch_item_exception_witness :
    dictGet? (download_files_batch opC1 [1, 2]) 1 = none ∧
    dictGet? (download_files_batch opC1 [1, 2]) 2 = some (itemValue opC1 2) :=
  ⟨((C1_batch_item_exception opC1 [1, 2]).1 1 (by decide) "boom" (by decide)).1,
   ((C1_batch_item_exception opC1 [1, 2]).2 2 (by decide) [(2, { success := true })]
     (by decide)).1⟩

/-- C5: for every batch, the returned result map has at most as many entries as
there are input ids, and every entry whose per-item operation failed carries
`success = false`. -/
theorem C5_batch_result_map (op : Nat → ItemOutcome) (ids : List Nat) :
    (download_files_batch op ids).length ≤ ids.length ∧
    (restore_files_batch op ids).length ≤ ids.length ∧
    (∀ id r, (id, r) ∈ download_files_batch op ids → itemFailed op id → r.success = false) ∧
    (∀ id r, (id, r) ∈ restore_files_batch op ids → itemFailed op id → r.success = false) := by
  have hrd : restore_files_batch op ids = download_files_batch op ids := rfl
  have hlen : (download_files_batch op ids).length ≤ ids.length := by
    unfold download_files_batch
    simpa using foldl_record_length (ids.map (download_single op)) []
  have hfail : ∀ id r, (id, r) ∈ download_files_batch op ids →
      itemFailed op id → r.success = false := by
    intro id r hmem hf
    rw [batch_entry_itemValue hmem]
    exact itemValue_of_failed hf
  exact ⟨hlen, by rw [hrd]; exact hlen, hfail, by rw [hrd]; exact hfail⟩

/-- Witness for C5_batch_result_map at the concrete operation `opC5`. -/
theorem C5_batch_result_map_witness :
    (download_files_batch opC5 [5, 6]).length ≤ 2 ∧
    ({ success := false } : ItemResult).success = false :=
  ⟨(C5_batch_result_map opC5 [5, 6]).1,
   (C5_batch_result_map opC5 [5, 6]).2.2.1 6 { success := false } (by decide)
     (by simp [itemFailed, opC5, dictGet?, List.find?])⟩

theorem runningCount_append (a b : List TaskPhase) :
    runningCount (a ++ b) = runningCount a + runningCount b := by
  simp [runningCount, List.countP_append]

theorem runningCount_replicate_waiting (n : Nat) :
    runningCount (List.replicate n TaskPhase.waiting) = 0 := by
  induction n with
  | zero => rfl
  | succ k ih =>
    rw [List.replicate_succ]
    simp only [runningCount, List.countP_cons] at ih ⊢
    simp [ih]

/-- C9: starting from all `n` per-item tasks waiting, every state the batch
scheduler can reach has at most `max_concurrent` tasks inside the
semaphore-guarded region. -/
theorem C9_semaphore_bound (max_concurrent n : Nat) (s : List TaskPhase)
    (h : SemReachable max_concurrent (List.replicate n TaskPhase.waiting) s) :
    runningCount s ≤ max_concurrent := by
  induction h with
  | refl => simp [runningCount_replicate_waiting]
  | tail hr hstep ih =>
    cases hstep with
    | acquire a b hlt =>
      rw [runningCount_append] at hlt ⊢
      simp only [runningCount, List.countP_cons] at hlt ⊢
      simp at hlt ⊢
      omega
    | release a b =>
      rw [runningCount_append] at ih ⊢
      simp only [runningCount, List.countP_cons] at ih ⊢
      simp at ih ⊢
      omega

/-- Witness for C9_semaphore_bound: one acquire step from four waiting tasks
under limit 2. -/
theorem C9_semaphore_bound_witness :
    runningCount [TaskPhase.running, TaskPhase.waiting, TaskPhase.waiting,
      TaskPhase.waiting] ≤ 2 :=
  C9_semaphore_bound 2 4 _
    (Relation.ReflTransGen.single
      (SemStep.acquire [] [TaskPhase.waiting, TaskPhase.waiting, TaskPhase.waiting]
        (by decide)))

/-- C2 counterexample: with zero matching requests,
`integration_monitoring_workflow` returns `success = true` (not false), and
`bulk_file_download_workflow`'s data payload has no `requests_found` key at
all. -/
theorem C2_empty_find_counterexample :
    (integration_monitoring_workflow envC2 ["SAT", "PSAT"]).success = true ∧
    dictGet? (bulk_file_download_workflow envC2 ["SAT"] none).data "requests_found" =
      none := by decide

/-- C2 (amended): with zero matching requests no downstream step is invoked
(the result is a fixed literal independent of the batch/rerun outcomes), and:
`district_refresh_workflow` returns success=false with `requests_found = 0`;
`bulk_file_download_workflow` returns success=false with a data payload of
`type_names`/`district_ids` only (no `requests_found` key);
`integration_monitoring_workflow` returns success=TRUE with
`requests_found = 0`. -/
theorem C2_empty_find_short_circuit (env : WorkflowEnv) (hfind : env.find = .ok [])
    (district_ids : List Nat) (delete_checksums restore_files : Bool)
    (type_names : List String) (district_filter : Option (List Nat))
    (integration_types : List String) :
    district_refresh_workflow env district_ids delete_checksums restore_files =
      { success := false, message := "No requests found for the specified criteria",
        data := [("districts", DataVal.natList district_ids),
                 ("requests_found", DataVal.nat 0)],
        steps_completed := 0, total_steps := if restore_files then 3 else 2 } ∧
    bulk_file_download_workflow env type_names district_filter =
      { success := false, message := "No requests found for the specified criteria",
        data := [("type_names", DataVal.strList type_names),
                 ("district_ids", DataVal.optNatList district_filter)],
        steps_completed := 0, total_steps := 2 } ∧
    integration_monitoring_workflow env integration_types =
      { success := true, message := "No recent requests found for monitoring",
        data := [("integration_types", DataVal.strList integration_types),
                 ("requests_found", DataVal.nat 0)],
        steps_completed := 1, total_steps := 1 } := by
  refine ⟨?_, ?_, ?_⟩ <;>
    simp [district_refresh_workflow, bulk_file_download_workflow,
      integration_monitoring_workflow, hfind]

/-- Witness for C2_empty_find_short_circuit at the concrete environment. -/
theorem C2_empty_find_short_circuit_witness :
    district_refresh_workflow envC2 [3] true true =
      { success := false, message := "No requests found for the specified criteria",
        data := [("districts", DataVal.natList [3]), ("requests_found", DataVal.nat 0)],
        steps_completed := 0, total_steps := 3 } :=
  (C2_empty_find_short_circuit envC2 rfl [3] true true ["SAT"] none ["SAT"]).1

/-- C3: in every execution and every outcome branch of the three workflow
methods, the returned `WorkflowResult` satisfies
`steps_completed ≤ total_steps`. -/
theorem C3_steps_within_total (env : WorkflowEnv) (district_ids : List Nat)
    (delete_checksums restore_files : Bool) (type_names : List String)
    (district_filter : Option (List Nat)) (integration_types : List String) :
    (district_refresh_workflow env district_ids delete_checksums restore_files).steps_completed ≤
      (district_refresh_workflow env district_ids delete_checksums restore_files).total_steps ∧
    (bulk_file_download_workflow env type_names district_filter).steps_completed ≤
      (bulk_file_download_workflow env type_names district_filter).total_steps ∧
    (integration_monitoring_workflow env integration_types).steps_completed ≤
      (integration_monitoring_workflow env integration_types).total_steps := by
  refine ⟨?_, ?_, ?_⟩
  · unfold district_refresh_workflow
    rcases env.find with e | reqs
    · cases restore_files <;> simp
    · by_cases hreq : reqs.isEmpty
      · simp only [hreq, if_true]
        cases restore_files <;> simp
      · simp only [hreq, if_false]
        cases restore_files
        · simp only [Bool.false_eq_true, if_false]
          rcases hr : env.rerun_requests (reqs.map (·.RequestID)) delete_checksums with e | rr <;>
            simp [hr]
        · simp only [if_true]
          rcases hres : env.restore_files_batch (reqs.map (·.RequestID)) with e | rres
          · simp [hres]
          · rcases hr : env.rerun_requests (reqs.map (·.RequestID)) delete_checksums with e | rr <;>
              simp [hres, hr]
  · unfold bulk_file_download_workflow
    rcases env.find with e | reqs
    · simp
    · by_cases hreq : reqs.isEmpty
      · simp [hreq]
      · simp only [hreq, if_false]
        rcases hd : env.download_files_batch (reqs.map (·.RequestID)) with e | dres <;> simp [hd]
  · unfold integration_monitoring_workflow
    rcases env.find with e | reqs
    · simp
    · by_cases hreq : reqs.isEmpty <;> simp [hreq]

/-- C6: when a step raises, each workflow method catches the exception and
returns (rather than raises) a failed `WorkflowResult` whose data payload is
exactly the partial payload accumulated by the steps completed before the
exception; the result is a literal that does not depend on the outcomes of any
later step, so no later step runs. -/
theorem C6_step_exception_partial_result (env : WorkflowEnv) (district_ids : List Nat)
    (delete_checksums : Bool) (type_names : List String)
    (district_filter : Option (List Nat)) (integration_types : List String) :
    (∀ e, env.find = .error e → ∀ restore_files,
      district_refresh_workflow env district_ids delete_checksums restore_files =
        { success := false, message := "Workflow failed at step 1: " ++ e,
          data := [], steps_completed := 0,
          total_steps := if restore_files then 3 else 2 }) ∧
    (∀ reqs e, env.find = .ok reqs → reqs.isEmpty = false →
      env.restore_files_batch (reqs.map (·.RequestID)) = .error e →
      district_refresh_workflow env district_ids delete_checksums true =
        { success := false, message := "Workflow failed at step 2: " ++ e,
          data := [("requests_found", DataVal.nat (reqs.map (·.RequestID)).length),
                   ("request_ids", DataVal.natList (reqs.map (·.RequestID)))],
          steps_completed := 1, total_steps := 3 }) ∧
    (∀ reqs rres e, env.find = .ok reqs → reqs.isEmpty = false →
      env.restore_files_batch (reqs.map (·.RequestID)) = .ok rres →
      env.rerun_requests (reqs.map (·.RequestID)) delete_checksums = .error e →
      district_refresh_workflow env district_ids delete_checksums true =
        { success := false, message := "Workflow failed at step 3: " ++ e,
          data := [("requests_found", DataVal.nat (reqs.map (·.RequestID)).length),
                   ("request_ids", DataVal.natList (reqs.map (·.RequestID))),
                   ("restore_results", DataVal.itemMap rres)],
          steps_completed := 2, total_steps := 3 }) ∧
    (∀ reqs e, env.find = .ok reqs → reqs.isEmpty = false →
      env.rerun_requests (reqs.map (·.RequestID)) delete_checksums = .error e →
      district_refresh_workflow env district_ids delete_checksums false =
        { success := false, message := "Workflow failed at step 2: " ++ e,
          data := [("requests_found", DataVal.nat (reqs.map (·.RequestID)).length),
                   ("request_ids", DataVal.natList (reqs.map (·.RequestID)))],
          steps_completed := 1, total_steps := 2 }) ∧
    (∀ e, env.find = .error e →
      bulk_file_download_workflow env type_names district_filter =
        { success := false, message := "Bulk download workflow failed: " ++ e,
          data := [], steps_completed := 1, total_steps := 2 }) ∧
    (∀ reqs e, env.find = .ok reqs → reqs.isEmpty = false →
      env.download_files_batch (reqs.map (·.RequestID)) = .error e →
      bulk_file_download_workflow env type_names district_filter =
        { success := false, message := "Bulk download workflow failed: " ++ e,
          data := [("requests_found", DataVal.nat (reqs.map (·.RequestID)).length),
                   ("request_details", DataVal.reqDetails (reqs.map fun r =>
                     (r.RequestID, r.DistrictID, r.DataRequestTypeName, r.Status)))],
          steps_completed := 1, total_steps := 2 }) ∧
    (∀ e, env.find = .error e →
      integration_monitoring_workflow env integration_types =
        { success := false, message := "Monitoring workflow failed: " ++ e,
          data := [], steps_completed := 0, total_steps := 1 }) := by
  refine ⟨?_, ?_, ?_, ?_, ?_, ?_, ?_⟩
  · intro e hf rf
    cases rf <;> simp [district_refresh_workflow, hf]
  · intro reqs e hf hne hres
    simp [district_refresh_workflow, hf, hne, hres, dictSet]
  · intro reqs rres e hf hne hres hrer
    simp [district_refresh_workflow, hf, hne, hres, hrer, dictSet]
  · intro reqs e hf hne hrer
    simp [district_refresh_workflow, hf, hne, hrer, dictSet]
  · intro e hf
    simp [bulk_file_download_workflow, hf]
  · intro reqs e hf hne hd
    simp [bulk_file_download_workflow, hf, hne, hd, dictSet]
  · intro e hf
    simp [integration_monitoring_workflow, hf]

/-- Witness for C6_step_exception_partial_result at a concrete environment. -/
theorem C6_step_exception_partial_result_witness :
    district_refresh_workflow envC6 [3] true true =
      { success := false, message := "Workflow failed at step 1: db down",
        data := [], steps_completed := 0, total_steps := 3 } :=
  ((C6_step_exception_partial_result envC6 [3] true ["SAT"] none ["SAT"]).1
    "db down" rfl true).trans (by simp)

/-- C7: the three mutating operations never write the `Request` table (nor the
type or district-upload tables): `clear_checksums` only removes checksum rows,
`bump_latest_queue` only updates status/result fields of existing queue rows,
and `rerun_requests` composes exactly those two mutations. -/
theorem C7_request_table_read_only (db : DB) (district_ids : List Nat)
    (directory_paths : Option (List String)) (keys : Option (List String))
    (request_ids : List Nat) (delete_checksums : Bool) :
    ((clear_checksums db district_ids directory_paths keys).2.requests = db.requests ∧
     (clear_checksums db district_ids directory_paths keys).2.requestTypes = db.requestTypes ∧
     (clear_checksums db district_ids directory_paths keys).2.districtUploads = db.districtUploads ∧
     (clear_checksums db district_ids directory_paths keys).2.queues = db.queues ∧
     (clear_checksums db district_ids directory_paths keys).2.checksums.Sublist db.checksums) ∧
    ((bump_latest_queue db district_ids directory_paths).2.requests = db.requests ∧
     (bump_latest_queue db district_ids directory_paths).2.requestTypes = db.requestTypes ∧
     (bump_latest_queue db district_ids directory_paths).2.districtUploads = db.districtUploads ∧
     (bump_latest_queue db district_ids directory_paths).2.checksums = db.checksums ∧
     (bump_latest_queue db district_ids directory_paths).2.queues.length = db.queues.length ∧
     (∀ q' ∈ (bump_latest_queue db district_ids directory_paths).2.queues,
        ∃ q ∈ db.queues, q'.xpsQueueID = q.xpsQueueID ∧
          q'.xpsDistrictUploadID = q.xpsDistrictUploadID)) ∧
    ((rerun_requests db request_ids delete_checksums keys).2.requests = db.requests ∧
     (rerun_requests db request_ids delete_checksums keys).2.requestTypes = db.requestTypes ∧
     (rerun_requests db request_ids delete_checksums keys).2.districtUploads = db.districtUploads ∧
     (rerun_requests db request_ids delete_checksums keys).2.checksums.Sublist db.checksums ∧
     (rerun_requests db request_ids delete_checksums keys).2.queues.length = db.queues.length ∧
     (∀ q' ∈ (rerun_requests db request_ids delete_checksums keys).2.queues,
        ∃ q ∈ db.queues, q'.xpsQueueID = q.xpsQueueID ∧
          q'.xpsDistrictUploadID = q.xpsDistrictUploadID)) := by
  have hbumpq : ∀ (db' : DB) (dids : List Nat) (dirs : Option (List String)),
      ∀ q' ∈ (bump_latest_queue db' dids dirs).2.queues,
        ∃ q ∈ db'.queues, q'.xpsQueueID = q.xpsQueueID ∧
          q'.xpsDistrictUploadID = q.xpsDistrictUploadID := by
    intro db' dids dirs q' hq'
    simp only [bump_latest_queue, List.mem_map] at hq'
    rcases hq' with ⟨q, hq, rfl⟩
    refine ⟨q, hq, ?_⟩
    split <;> exact ⟨rfl, rfl⟩
  refine ⟨⟨rfl, rfl, rfl, rfl, List.filter_sublist _⟩,
          ⟨rfl, rfl, rfl, rfl, by simp [bump_latest_queue], hbumpq db district_ids directory_paths⟩,
          ?_, ?_, ?_, ?_, ?_, ?_⟩
  · unfold rerun_requests
    split <;> rfl
  · unfold rerun_requests
    split <;> rfl
  · unfold rerun_requests
    split <;> rfl
  · unfold rerun_requests
    split
    · exact List.filter_sublist _
    · exact List.Sublist.refl _
  · unfold rerun_requests
    split <;> simp [bump_latest_queue, clear_checksums]
  · intro q' hq'
    simp only [rerun_requests] at hq'
    rcases hbumpq _ _ _ q' hq' with ⟨q, hq, h1, h2⟩
    refine ⟨q, ?_, h1, h2⟩
    have hq1 : (if delete_checksums = true then
        clear_checksums db (rerun_collect db request_ids).1
          (some (rerun_collect db request_ids).2) keys
      else (0, db)).2.queues = db.queues := by
      split <;> rfl
    rwa [hq1] at hq

theorem foldl_skip_filter {α β : Type} (step : β → α → β) (p : α → Bool)
    (hskip : ∀ b a, p a = false → step b a = b) :
    ∀ (l : List α) (b : β), l.foldl step b = (l.filter p).foldl step b := by
  intro l
  induction l with
  | nil => intro b; rfl
  | cons x xs ih =>
    intro b
    by_cases hx : p x = true
    · rw [List.foldl_cons, List.filter_cons_of_pos hx, List.foldl_cons, ih]
    · rw [List.foldl_cons, hskip b x (Bool.not_eq_true _ ▸ hx),
        List.filter_cons_of_neg (by simpa using hx), ih]

theorem rerun_step_skip {db : DB} {req_id : Nat}
    (h : rerun_resolvable db req_id = false) (acc : List Nat × List String) :
    rerun_step db acc req_id = acc := by
  unfold rerun_resolvable at h
  rcases hf : db.requests.find? (fun r => r.RequestID == req_id) with _ | r
  · simp [rerun_step, hf]
  · rw [hf] at h
    simp only at h
    rcases hp : pyOr r.ImportedFileName (get_directory_path_for_request db r.RequestID)
      with _ | p
    · simp [rerun_step, hf, hp]
    · rw [hp] at h
      simp only [pyTruthy, Bool.not_eq_false'] at h
      simp [rerun_step, hf, hp, h]

theorem restore_step_skip {db : DB} {req_id : Nat}
    (h : restore_resolvable db req_id = false) (acc : List (Nat × List Char)) :
    restore_step db acc req_id = acc := by
  unfold restore_resolvable at h
  rcases hf : get_directory_path_for_request db req_id with _ | p
  · simp [restore_step, hf]
  · rw [hf] at h
    simp only [pyTruthy, Bool.not_eq_false'] at h
    simp [restore_step, hf, h]

theorem foldl_restore_get_none (db : DB) (ids : List Nat) (id : Nat)
    (h : restore_resolvable db id = false) :
    ∀ acc : List (Nat × List Char), dictGet? acc id = none →
      dictGet? (ids.foldl (restore_step db) acc) id = none := by
  induction ids with
  | nil => intro acc hacc; exact hacc
  | cons j rest ih =>
    intro acc hacc
    rw [List.foldl_cons]
    apply ih
    by_cases hj : j = id
    · subst hj
      rw [restore_step_skip h]
      exact hacc
    · rcases hf : get_directory_path_for_request db j with _ | p
      · simpa [restore_step, hf] using hacc
      · by_cases hp : p.isEmpty
        · simpa [restore_step, hf, hp] using hacc
        · rw [show restore_step db acc j =
              dictSet acc j (db_windows_path_to_remote_sftp_path p.toList) from by
            simp [restore_step, hf, hp]]
          rw [dictGet?_dictSet_ne _ _ _ _ (fun hc => hj hc.symm)]
          exact hacc

/-- C8: ids whose directory path cannot be resolved (request row missing, or
no truthy `ImportedFileName` and no district upload path) contribute nothing:
the collected districts/paths of `rerun_requests`, its database effects and
its reported counts, and the `request_to_path` map of `restore_files`, all
equal those computed from only the resolvable ids; an unresolvable id never
appears in the restore map. -/
theorem C8_unresolved_path_skips_id (db : DB) (request_ids : List Nat)
    (delete_checksums : Bool) (checksum_keys : Option (List String)) :
    rerun_collect db request_ids =
      rerun_collect db (request_ids.filter (rerun_resolvable db)) ∧
    (rerun_requests db request_ids delete_checksums checksum_keys).1.checksums_deleted =
      (rerun_requests db (request_ids.filter (rerun_resolvable db)) delete_checksums
        checksum_keys).1.checksums_deleted ∧
    (rerun_requests db request_ids delete_checksums checksum_keys).1.queues_updated =
      (rerun_requests db (request_ids.filter (rerun_resolvable db)) delete_checksums
        checksum_keys).1.queues_updated ∧
    (rerun_requests db request_ids delete_checksums checksum_keys).2 =
      (rerun_requests db (request_ids.filter (rerun_resolvable db)) delete_checksums
        checksum_keys).2 ∧
    restore_request_to_path db request_ids =
      restore_request_to_path db (request_ids.filter (restore_resolvable db)) ∧
    (∀ id, restore_resolvable db id = false →
      dictGet? (restore_request_to_path db request_ids) id = none) := by
  have hcol : rerun_collect db request_ids =
      rerun_collect db (request_ids.filter (rerun_resolvable db)) := by
    unfold rerun_collect
    exact foldl_skip_filter (rerun_step db) (rerun_resolvable db)
      (fun b a ha => rerun_step_skip ha b) request_ids ([], [])
  refine ⟨hcol, ?_, ?_, ?_, ?_, ?_⟩
  · simp only [rerun_requests, hcol]
  · simp only [rerun_requests, hcol]
  · simp only [rerun_requests, hcol]
  · unfold restore_request_to_path
    exact foldl_skip_filter (restore_step db) (restore_resolvable db)
      (fun b a ha => restore_step_skip ha b) request_ids []
  · intro id hid
    exact foldl_restore_get_none db request_ids id hid [] rfl

/-- Witness for C8_unresolved_path_skips_id: id 11 has no request row, so the
restore map built for `[10, 11]` has no entry for it. -/
theorem C8_unresolved_path_skips_id_witness :
    dictGet? (restore_request_to_path dbC8 [10, 11]) 11 = none :=
  (C8_unresolved_path_skips_id dbC8 [10, 11] true none).2.2.2.2.2 11 (by decide)

theorem le_maxNatList {l : List Nat} {x : Nat} (h : x ∈ l) : x ≤ maxNatList l := by
  induction l with
  | nil => cases h
  | cons y ys ih =>
    rcases List.mem_cons.mp h with rfl | h
    · exact Nat.le_max_left _ _
    · exact Nat.le_trans (ih h) (Nat.le_max_right _ _)

theorem maxNatList_mem {l : List Nat} (h : l ≠ []) : maxNatList l ∈ l := by
  induction l with
  | nil => exact absurd rfl h
  | cons y ys ih =>
    cases ys with
    | nil => simp [maxNatList]
    | cons z zs =>
      rw [show maxNatList (y :: z :: zs) = Nat.max y (maxNatList (z :: zs)) from rfl]
      by_cases hc : y ≤ maxNatList (z :: zs)
      · have he : Nat.max y (maxNatList (z :: zs)) = maxNatList (z :: zs) :=
          Nat.max_eq_right hc
        rw [he]
        exact List.mem_cons_of_mem y (ih (List.cons_ne_nil z zs))
      · have he : Nat.max y (maxNatList (z :: zs)) = y :=
          Nat.max_eq_left (Nat.le_of_not_le hc)
        rw [he]
        exact List.mem_cons_self _ _

theorem mem_insertDescBy {α : Type} (key : α → Nat) (x a : α) (l : List α) :
    a ∈ insertDescBy key x l ↔ a = x ∨ a ∈ l := by
  induction l with
  | nil => simp [insertDescBy]
  | cons y ys ih =>
    unfold insertDescBy
    split
    · simp [List.mem_cons]
    · simp only [List.mem_cons, ih]
      tauto

theorem mem_sortDescBy {α : Type} (key : α → Nat) (a : α) (l : List α) :
    a ∈ sortDescBy key l ↔ a ∈ l := by
  induction l with
  | nil => simp [sortDescBy]
  | cons x xs ih =>
    unfold sortDescBy
    rw [mem_insertDescBy, ih, List.mem_cons]

theorem latestGroups_shape {db : DB} {dids eff sts : List Nat} {g : Nat × Nat × Nat}
    (hg : g ∈ latestGroups db dids eff sts) :
    g = (g.1, g.2.1, maxNatList
      (((db.requests.filter (fun r => requestPassesFilters r dids eff sts)).filter
        (fun r => r.DistrictID == g.1 && r.DataRequestTypeID == g.2.1)).map
        (·.RequestID))) ∧
    ∃ req0 ∈ db.requests, requestPassesFilters req0 dids eff sts = true ∧
      req0.DistrictID = g.1 ∧ req0.DataRequestTypeID = g.2.1 := by
  simp only [latestGroups, List.mem_map] at hg
  rcases hg with ⟨p, hp, rfl⟩
  rw [List.mem_dedup, List.mem_map] at hp
  rcases hp with ⟨req0, hreq0, hpair⟩
  rcases List.mem_filter.mp hreq0 with ⟨hreq0db, hreq0pass⟩
  refine ⟨rfl, req0, hreq0db, hreq0pass, ?_, ?_⟩
  · exact congrArg Prod.fst hpair
  · exact congrArg Prod.snd hpair

theorem latestGroups_exists {db : DB} {dids eff sts : List Nat} {g : Nat × Nat × Nat}
    (hg : g ∈ latestGroups db dids eff sts) :
    ∃ req ∈ db.requests, requestPassesFilters req dids eff sts = true ∧
      req.DistrictID = g.1 ∧ req.DataRequestTypeID = g.2.1 ∧ req.RequestID = g.2.2 := by
  rcases latestGroups_shape hg with ⟨hshape, req0, hreq0db, hreq0pass, hreq0d, hreq0t⟩
  set filtered := db.requests.filter (fun r => requestPassesFilters r dids eff sts) with hfil
  set cands := ((filtered.filter
    (fun r => r.DistrictID == g.1 && r.DataRequestTypeID == g.2.1)).map
    (·.RequestID)) with hcands
  have hreq0f : req0 ∈ filtered.filter
      (fun r => r.DistrictID == g.1 && r.DataRequestTypeID == g.2.1) := by
    rw [List.mem_filter]
    refine ⟨List.mem_filter.mpr ⟨hreq0db, hreq0pass⟩, ?_⟩
    simp [hreq0d, hreq0t]
  have hne : cands ≠ [] := by
    have : req0.RequestID ∈ cands := List.mem_map_of_mem _ hreq0f
    exact List.ne_nil_of_mem this
  have hmax : maxNatList cands ∈ cands := maxNatList_mem hne
  rw [hcands, List.mem_map] at hmax
  rcases hmax with ⟨reqM, hreqMf, hreqMid⟩
  rcases List.mem_filter.mp hreqMf with ⟨hreqMfil, hbeq⟩
  rcases List.mem_filter.mp hreqMfil with ⟨hreqMdb, hreqMpass⟩
  simp only [Bool.and_eq_true, beq_iff_eq] at hbeq
  refine ⟨reqM, hreqMdb, hreqMpass, hbeq.1, hbeq.2, ?_⟩
  rw [hreqMid]
  have := congrArg (fun x => x.2.2) hshape
  simpa [hcands, hfil] using this.symm

theorem latestGroups_ub {db : DB} {dids eff sts : List Nat} {g : Nat × Nat × Nat}
    (hg : g ∈ latestGroups db dids eff sts) {req : Request} (hreq : req ∈ db.requests)
    (hpass : requestPassesFilters req dids eff sts = true)
    (hd : req.DistrictID = g.1) (ht : req.DataRequestTypeID = g.2.1) :
    req.RequestID ≤ g.2.2 := by
  rcases latestGroups_shape hg with ⟨hshape, -⟩
  have hmem : req.RequestID ∈ ((db.requests.filter
      (fun r => requestPassesFilters r dids eff sts)).filter
      (fun r => r.DistrictID == g.1 && r.DataRequestTypeID == g.2.1)).map
      (·.RequestID) := by
    apply List.mem_map_of_mem
    rw [List.mem_filter]
    refine ⟨List.mem_filter.mpr ⟨hreq, hpass⟩, ?_⟩
    simp [hd, ht]
  have := le_maxNatList hmem
  have h22 := congrArg (fun x => x.2.2) hshape
  simp only at h22
  rw [← h22] at this
  exact this

theorem latestGroups_pair_unique {db : DB} {dids eff sts : List Nat}
    {g1 g2 : Nat × Nat × Nat} (h1 : g1 ∈ latestGroups db dids eff sts)
    (h2 : g2 ∈ latestGroups db dids eff sts) (hd : g1.1 = g2.1)
    (ht : g1.2.1 = g2.2.1) : g1 = g2 := by
  rcases latestGroups_shape h1 with ⟨hs1, -⟩
  rcases latestGroups_shape h2 with ⟨hs2, -⟩
  rw [hs1, hs2, hd, ht]

theorem joinRow_inv {db : DB} {since_date : Option Nat}
    {latest : List (Nat × Nat × Nat)} {r : Request} {row : RequestRow}
    (h : joinRow db since_date latest r = some row) :
    (∃ g ∈ latest, g.1 = r.DistrictID ∧ g.2.1 = r.DataRequestTypeID ∧
      g.2.2 = r.RequestID) ∧
    row.RequestID = r.RequestID ∧ row.DistrictID = r.DistrictID ∧
    row.DataRequestTypeID = r.DataRequestTypeID := by
  unfold joinRow at h
  split at h
  · rename_i hany
    split at h
    · rename_i t hfind
      split at h
      · injection h with h
        subst h
        simp only [List.any_eq_true, Bool.and_eq_true, beq_iff_eq] at hany
        rcases hany with ⟨g, hgmem, ⟨hgd, hgt⟩, hgid⟩
        exact ⟨⟨g, hgmem, hgd, hgt, hgid⟩, rfl, rfl, rfl⟩
      · cases h
    · cases h
  · cases h

/-- C10: assuming `RequestID` is a primary key (no duplicate ids),
`find_latest_requests` returns at most one row per
`(DistrictID, DataRequestTypeID)` pair, and each returned row is the request
with the maximal `RequestID` among that district's and type's requests whose
`Status` lies in the given status set. -/
theorem C10_find_latest_one_per_pair (db : DB) (type_ids : List Nat)
    (type_name_filters : List String) (district_ids : List Nat)
    (statuses : List Nat) (since_date : Option Nat)
    (hnodup : (db.requests.map (·.RequestID)).Nodup) :
    (∀ r1 ∈ find_latest_requests db type_ids type_name_filters district_ids statuses
        since_date,
     ∀ r2 ∈ find_latest_requests db type_ids type_name_filters district_ids statuses
        since_date,
       r1.DistrictID = r2.DistrictID → r1.DataRequestTypeID = r2.DataRequestTypeID →
         r1 = r2) ∧
    (∀ row ∈ find_latest_requests db type_ids type_name_filters district_ids statuses
        since_date,
       ∃ req ∈ db.requests,
         req.RequestID = row.RequestID ∧ req.DistrictID = row.DistrictID ∧
         req.DataRequestTypeID = row.DataRequestTypeID ∧
         statusIn req.Status statuses = true ∧
         ∀ req2 ∈ db.requests, req2.DistrictID = row.DistrictID →
           req2.DataRequestTypeID = row.DataRequestTypeID →
           statusIn req2.Status statuses = true → req2.RequestID ≤ row.RequestID) := by
  have hinj := List.inj_on_of_nodup_map hnodup
  set eff := effectiveTypeIds db type_ids type_name_filters with heff
  have hmem : ∀ row, row ∈ find_latest_requests db type_ids type_name_filters district_ids
      statuses since_date ↔
      ∃ a ∈ db.requests,
        joinRow db since_date (latestGroups db district_ids eff statuses) a = some row := by
    intro row
    unfold find_latest_requests
    rw [mem_sortDescBy, List.mem_filterMap, heff]
  constructor
  · intro r1 h1 r2 h2 hd ht
    rcases (hmem r1).mp h1 with ⟨a1, ha1, hF1⟩
    rcases (hmem r2).mp h2 with ⟨a2, ha2, hF2⟩
    rcases joinRow_inv hF1 with ⟨⟨g1, hg1, hg1d, hg1t, hg1id⟩, hr1id, hr1d, hr1t⟩
    rcases joinRow_inv hF2 with ⟨⟨g2, hg2, hg2d, hg2t, hg2id⟩, hr2id, hr2d, hr2t⟩
    have hgg : g1 = g2 := by
      apply latestGroups_pair_unique hg1 hg2
      · rw [hg1d, hg2d, ← hr1d, ← hr2d, hd]
      · rw [hg1t, hg2t, ← hr1t, ← hr2t, ht]
    have haid : a1.RequestID = a2.RequestID := by
      rw [← hg1id, ← hg2id, hgg]
    have haa : a1 = a2 := hinj ha1 ha2 haid
    subst haa
    rw [hF1] at hF2
    injection hF2
  · intro row hrow
    rcases (hmem row).mp hrow with ⟨a, ha, hF⟩
    rcases joinRow_inv hF with ⟨⟨g, hg, hgd, hgt, hgid⟩, hrid, hrd, hrt⟩
    rcases latestGroups_exists hg with ⟨reqM, hreqMdb, hreqMpass, hreqMd, hreqMt, hreqMid⟩
    have haM : a = reqM := hinj ha hreqMdb (by rw [← hgid, ← hreqMid])
    have hapass : requestPassesFilters a district_ids eff statuses = true := by
      rw [haM]; exact hreqMpass
    have hastatus : statusIn a.Status statuses = true := by
      unfold requestPassesFilters at hapass
      simp only [Bool.and_eq_true] at hapass
      exact hapass.1.1
    refine ⟨a, ha, hrid.symm, hrd.symm, hrt.symm, hastatus, ?_⟩
    intro req2 hreq2 hreq2d hreq2t hreq2status
    have hreq2pass : requestPassesFilters req2 district_ids eff statuses = true := by
      unfold requestPassesFilters at hapass ⊢
      simp only [Bool.and_eq_true] at hapass ⊢
      refine ⟨⟨hreq2status, ?_⟩, ?_⟩
      · rw [show req2.DistrictID = a.DistrictID from by rw [hreq2d, hrd]]
        exact hapass.1.2
      · rw [show req2.DataRequestTypeID = a.DataRequestTypeID from by rw [hreq2t, hrt]]
        exact hapass.2
    have hle : req2.RequestID ≤ g.2.2 := by
      apply latestGroups_ub hg hreq2 hreq2pass
      · rw [hreq2d, hrd, hgd]
      · rw [hreq2t, hrt, hgt]
    rw [hrid, ← hgid]
    exact hle

/-- Witness for C10_find_latest_one_per_pair at the concrete database
`dbC8` (its single request id list is trivially duplicate-free). -/
theorem C10_find_latest_one_per_pair_witness :
    ∃ req ∈ dbC8.requests,
      req.RequestID = 10 ∧ req.DistrictID = 1 ∧ req.DataRequestTypeID = 2 ∧
      statusIn req.Status [4, 5] = true ∧
      ∀ req2 ∈ dbC8.requests, req2.DistrictID = 1 → req2.DataRequestTypeID = 2 →
        statusIn req2.Status [4, 5] = true → req2.RequestID ≤ 10 := by
  have hrow : ∀ row ∈ find_latest_requests dbC8 [] [] [] [4, 5] none,
      ∃ req ∈ dbC8.requests,
        req.RequestID = row.RequestID ∧ req.DistrictID = row.DistrictID ∧
        req.DataRequestTypeID = row.DataRequestTypeID ∧
        statusIn req.Status [4, 5] = true ∧
        ∀ req2 ∈ dbC8.requests, req2.DistrictID = row.DistrictID →
          req2.DataRequestTypeID = row.DataRequestTypeID →
          statusIn req2.Status [4, 5] = true → req2.RequestID ≤ row.RequestID :=
    (C10_find_latest_one_per_pair dbC8 [] [] [] [4, 5] none (by decide)).2
  have := hrow
    { RequestID := 10, DistrictID := 1, DataRequestTypeID := 2,
      DataRequestTypeName := "SAT", ImportedFileName :=
        some "F:\\FTProot\\Districts\\NY\\roster.csv",
      Status := some 4, RequestTime := some 100, RequestTimeEST := some 100 }
    (by decide)
  simpa using this

/-- Witness for C3_steps_within_total at a concrete environment. -/
theorem C3_steps_within_total_witness :
    (district_refresh_workflow envC6 [1] true true).steps_completed ≤
      (district_refresh_workflow envC6 [1] true true).total_steps :=
  (C3_steps_within_total envC6 [1] true true ["SAT"] none ["SAT"]).1

/-- Witness for C7_request_table_read_only at a concrete database. -/
theorem C7_request_table_read_only_witness :
    (clear_checksums dbC8 [1] none none).2.requests = dbC8.requests :=
  (C7_request_table_read_only dbC8 [1] none none [10] true).1.1

end IntegrationTools
